import Mathlib

/-!
Shallow embedding of the Smart Money Concept market-structure engine of this
repository, together with theorems checking the frozen claims against it.

The embedding follows the enhanced `MarketStructureAnalyzer` of
`src/server/routes.ts` (the analyzer carrying the configurable
`bosThreshold`/`chochThreshold`/`minStructureDistance`/`structureLockBars`
parameters that the specification describes), the `BatchSMCAnalyzer` of
`src/server/market-structure-analyzer.ts`, the `NotificationService` of the
websocket module, and the stock-search route handler.

Conventions: prices and percentages are rationals (`ℚ`); JavaScript `Date`
values are integers (`ℤ`, milliseconds); `Date.now()` is made an explicit
`now : ℤ` parameter wherever the source reads the ambient clock; the random
notification ids are an explicit id-supply parameter.  Arrays are lists and
the in-place mutations of the source become explicit state passing.
-/

/-- A candlestick, from the `Candle` interface.  `open` is a Lean keyword,
so the field is called `open_`. -/
structure Candle where
  open_ : ℚ
  high : ℚ
  low : ℚ
  close : ℚ
  volume : ℚ
  timestamp : ℤ
deriving DecidableEq, Repr

instance : Inhabited Candle := ⟨⟨0, 0, 0, 0, 0, 0⟩⟩

/-- Swing point kind (`'high' | 'low'`). -/
inductive SPType where
  | high
  | low
deriving DecidableEq, Repr

/-- A swing point, from the `SwingPoint` interface. -/
structure SwingPoint where
  index : ℕ
  price : ℚ
  type : SPType
  timestamp : ℤ
deriving DecidableEq, Repr

/-- Structure-event kind (`'BOS' | 'CHOCH'`). -/
inductive EType where
  | BOS
  | CHOCH
deriving DecidableEq, Repr

/-- Direction of a structure event (`'bullish' | 'bearish'`). -/
inductive Dir where
  | bullish
  | bearish
deriving DecidableEq, Repr

/-- Significance of a structure event (`'minor' | 'major'`). -/
inductive Sig where
  | minor
  | major
deriving DecidableEq, Repr

/-- A BOS/CHOCH event, from the `BOSCHOCHEvent` interface. -/
structure BEvent where
  type : EType
  direction : Dir
  price : ℚ
  timestamp : ℤ
  brokenLevel : ℚ
  significance : Sig
deriving DecidableEq, Repr

/-- A fair value gap, from the `FairValueGap` interface of `routes.ts`
(the variant carrying `qualityScore` and `nearStructureEvent`). -/
structure FairValueGap where
  id : String
  upperBound : ℚ
  lowerBound : ℚ
  sizePercentage : ℚ
  timestamp : ℤ
  direction : Dir
  isMitigated : Bool
  mitigatedAt : Option ℤ
  qualityScore : ℚ
  nearStructureEvent : Bool
deriving DecidableEq, Repr

/-- The five market-structure states. -/
inductive MStructure where
  | bullish
  | bearish
  | bullishCHoCH
  | bearishCHoCH
  | neutral
deriving DecidableEq, Repr

/-- Result record of `analyzeMarketStructure`. -/
structure MarketStructureAnalysis where
  currentStructure : MStructure
  lastBOSCHOCH : Option BEvent
  activeFVGs : List FairValueGap
  recentSwingPoints : List SwingPoint
  trendStrength : ℚ
  structureConfidence : ℚ
deriving DecidableEq, Repr

/-- Constructor parameters of the `MarketStructureAnalyzer` in `routes.ts`.
`lookbackWindow` is used both as an index offset and inside rational
arithmetic, so it is a natural number here. -/
structure AnalyzerParams where
  lookbackWindow : ℕ
  minFVGSize : ℚ
  bosThreshold : ℚ
  chochThreshold : ℚ
  minStructureDistance : ℚ
  structureLockBars : ℕ
deriving DecidableEq, Repr

/-- The constructor defaults `(20, 0.2, 0.3, 0.5, 1.0, 5)`. -/
def defaultParams : AnalyzerParams :=
  ⟨20, 1/5, 3/10, 1/2, 1, 5⟩

/-- The `(high + low + close) / 3` typical price used for the mean price. -/
def candleHLC (c : Candle) : ℚ := (c.high + c.low + c.close) / 3

/-- `calculateATR`: sum of the true ranges of candles `1 … min(period, N−1)`
divided by `period`; `0` when fewer than `period + 1` candles. -/
def calculateATR (candles : List Candle) (period : ℕ) : ℚ :=
  if candles.length < period + 1 then 0
  else
    ((List.range' 1 (min (period + 1) candles.length - 1)).map (fun i =>
      let current := candles.getD i default
      let previous := candles.getD (i - 1) default
      max (current.high - current.low)
        (max |current.high - previous.close| |current.low - previous.close|))).sum
      / (period : ℚ)

/-- The volatility-adaptive lookback of `detectSwingPoints`:
`floor (max 5 (min 30 branch))` where the branch halves the base lookback
below volatility ratio 1 and multiplies it by 1.5 above 3. -/
def dynamicLookback (P : AnalyzerParams) (candles : List Candle) : ℕ :=
  let atr := calculateATR candles 14
  let avgPrice := ((candles.drop (candles.length - 20)).map candleHLC).sum / 20
  let volRatio := atr / avgPrice * 100
  let dyn : ℚ := max 5 (min 30
    (if volRatio < 1 then (P.lookbackWindow : ℚ) / 2
     else if volRatio > 3 then (P.lookbackWindow : ℚ) * (3/2)
     else (P.lookbackWindow : ℚ)))
  (⌊dyn⌋).toNat

/-- The swing-high test of `detectSwingPoints`: no other high in the window
`[i − L, i + L]` reaches `high i · (1 − 0.1%)`. -/
def swingHighOk (candles : List Candle) (L i : ℕ) : Bool :=
  let currentHigh := (candles.getD i default).high
  (List.range' (i - L) (2 * L + 1)).all fun j =>
    j == i || decide ((candles.getD j default).high < currentHigh * (1 - 1/1000))

/-- The swing-low test of `detectSwingPoints`: no other low in the window
`[i − L, i + L]` reaches `low i · (1 + 0.1%)`. -/
def swingLowOk (candles : List Candle) (L i : ℕ) : Bool :=
  let currentLow := (candles.getD i default).low
  (List.range' (i - L) (2 * L + 1)).all fun j =>
    j == i || decide ((candles.getD j default).low > currentLow * (1 + 1/1000))

/-- `detectSwingPoints` of `routes.ts`: swing highs, then swing lows, then a
stable sort by index (the JavaScript `Array.prototype.sort` is stable). -/
def detectSwingPoints (P : AnalyzerParams) (candles : List Candle) : List SwingPoint :=
  let L := dynamicLookback P candles
  let highs := (List.range candles.length).filterMap fun i =>
    if L ≤ i ∧ i + L < candles.length ∧ swingHighOk candles L i = true then
      some ⟨i, (candles.getD i default).high, SPType.high, (candles.getD i default).timestamp⟩
    else none
  let lows := (List.range candles.length).filterMap fun i =>
    if L ≤ i ∧ i + L < candles.length ∧ swingLowOk candles L i = true then
      some ⟨i, (candles.getD i default).low, SPType.low, (candles.getD i default).timestamp⟩
    else none
  List.insertionSort (fun a b => a.index ≤ b.index) (highs ++ lows)

/-- `calculateSignificance`: major iff the break distance is at least 1 % of
the broken level. -/
def calcSignificance (brokenLevel breakPrice : ℚ) : Sig :=
  if |(breakPrice - brokenLevel) / brokenLevel| * 100 ≥ 1 then Sig.major else Sig.minor

/-- `validateStructureDistance`: with no prior opposite event the check
passes; otherwise the distance from the opposite event's price must reach
`brokenLevel · minStructureDistance %`. -/
def validateStructureDistance (P : AnalyzerParams) (brokenLevel currentPrice : ℚ)
    (lastOpposite : Option BEvent) : Bool :=
  match lastOpposite with
  | none => true
  | some e => decide (|currentPrice - e.price| ≥ brokenLevel * (P.minStructureDistance / 100))

/-- The most recent swing (last in sorted order) with index `< i`, as in
`relevantSwingHighs[relevantSwingHighs.length − 1]`. -/
def lastSwingBefore (sps : List SwingPoint) (i : ℕ) : Option SwingPoint :=
  (sps.filter (fun sp => sp.index < i)).getLast?

/-- Event constructor used by all four emission sites. -/
def mkEvent (t : EType) (d : Dir) (price : ℚ) (ts : ℤ) (level : ℚ) : BEvent :=
  ⟨t, d, price, ts, level, calcSignificance level price⟩

/-- The running state of `detectBOSCHOCH`, plus an emission log that also
records the candle index of each emitted event. -/
structure BState where
  lastBull : Option BEvent
  lastBear : Option BEvent
  lastEvt : Option BEvent
  lockUntil : ℕ
  log : List (ℕ × BEvent)
deriving DecidableEq, Repr

/-- Bullish-BOS check: close above the last swing high by the BOS
threshold, distance-validated against the last bearish BOS. -/
def bullishBOSStep (P : AnalyzerParams) (highs : List SwingPoint) (c : Candle)
    (i : ℕ) (s : BState) : BState :=
  match lastSwingBefore highs i with
  | none => s
  | some sh =>
    if c.close > sh.price * (1 + P.bosThreshold / 100) ∧
        validateStructureDistance P sh.price c.close s.lastBear = true then
      let e := mkEvent EType.BOS Dir.bullish c.close c.timestamp sh.price
      ⟨some e, s.lastBear, some e, i + P.structureLockBars, s.log ++ [(i, e)]⟩
    else s

/-- Bearish-BOS check: close below the last swing low by the BOS threshold,
distance-validated against the last bullish BOS. -/
def bearishBOSStep (P : AnalyzerParams) (lows : List SwingPoint) (c : Candle)
    (i : ℕ) (s : BState) : BState :=
  match lastSwingBefore lows i with
  | none => s
  | some sl =>
    if c.close < sl.price * (1 - P.bosThreshold / 100) ∧
        validateStructureDistance P sl.price c.close s.lastBull = true then
      let e := mkEvent EType.BOS Dir.bearish c.close c.timestamp sl.price
      ⟨s.lastBull, some e, some e, i + P.structureLockBars, s.log ++ [(i, e)]⟩
    else s

/-- Bearish-CHOCH check: needs an active bullish BOS, a close below the
recent swing low by the CHOCH threshold, a strictly later timestamp and the
distance validation; clears the bullish BOS on emission. -/
def bearishCHOCHStep (P : AnalyzerParams) (lows : List SwingPoint) (c : Candle)
    (i : ℕ) (s : BState) : BState :=
  match s.lastBull, lastSwingBefore lows i with
  | some b, some sl =>
    if c.close < sl.price * (1 - P.chochThreshold / 100) ∧ b.timestamp < c.timestamp ∧
        validateStructureDistance P sl.price c.close (some b) = true then
      let e := mkEvent EType.CHOCH Dir.bearish c.close c.timestamp sl.price
      ⟨none, s.lastBear, some e, i + P.structureLockBars, s.log ++ [(i, e)]⟩
    else s
  | _, _ => s

/-- Bullish-CHOCH check, symmetric to the bearish one. -/
def bullishCHOCHStep (P : AnalyzerParams) (highs : List SwingPoint) (c : Candle)
    (i : ℕ) (s : BState) : BState :=
  match s.lastBear, lastSwingBefore highs i with
  | some b, some sh =>
    if c.close > sh.price * (1 + P.chochThreshold / 100) ∧ b.timestamp < c.timestamp ∧
        validateStructureDistance P sh.price c.close (some b) = true then
      let e := mkEvent EType.CHOCH Dir.bullish c.close c.timestamp sh.price
      ⟨s.lastBull, none, some e, i + P.structureLockBars, s.log ++ [(i, e)]⟩
    else s
  | _, _ => s

/-- One loop iteration of `detectBOSCHOCH`: the structure lock skips the
whole candle, otherwise the four checks run in source order. -/
def processCandle (P : AnalyzerParams) (highs lows : List SwingPoint) (c : Candle)
    (i : ℕ) (s : BState) : BState :=
  if i < s.lockUntil ∧ s.lastEvt ≠ none then s
  else
    bullishCHOCHStep P highs c i
      (bearishCHOCHStep P lows c i
        (bearishBOSStep P lows c i
          (bullishBOSStep P highs c i s)))

/-- Initial state of `detectBOSCHOCH`. -/
def initBState : BState := ⟨none, none, none, 0, []⟩

/-- `detectBOSCHOCH` instrumented with emission indices: the loop runs over
candle indices `max lookbackWindow 1 … N − 1`. -/
def detectLog (P : AnalyzerParams) (candles : List Candle) : List (ℕ × BEvent) :=
  let sps := detectSwingPoints P candles
  let highs := sps.filter (fun sp => sp.type = SPType.high)
  let lows := sps.filter (fun sp => sp.type = SPType.low)
  ((List.range' (max P.lookbackWindow 1) (candles.length - max P.lookbackWindow 1)).foldl
    (fun s i => processCandle P highs lows (candles.getD i default) i s) initBState).log

/-- The event list produced by `detectBOSCHOCH` (the source stores only the
events; the emission indices of `detectLog` are the loop variable). -/
def detectBOSCHOCH (P : AnalyzerParams) (candles : List Candle) : List BEvent :=
  (detectLog P candles).map Prod.snd

/-- Whether a hit candle fills the gap: `low ≤ lowerBound` for a bullish
FVG, `high ≥ upperBound` for a bearish one. -/
def fvgHit (f : FairValueGap) (c : Candle) : Bool :=
  match f.direction with
  | Dir.bullish => decide (c.low ≤ f.lowerBound)
  | Dir.bearish => decide (c.high ≥ f.upperBound)

/-- Mitigation of one gap (`checkFVGMitigation` body for a single FVG):
already-mitigated gaps are untouched; otherwise the first candle strictly
later than the gap that fills it sets `isMitigated` and `mitigatedAt`. -/
def mitigateOne (candles : List Candle) (f : FairValueGap) : FairValueGap :=
  if f.isMitigated then f
  else
    match (candles.filter (fun c => f.timestamp < c.timestamp)).find? (fun c => fvgHit f c) with
    | some c => { f with isMitigated := true, mitigatedAt := some c.timestamp }
    | none => f

/-- `checkFVGMitigation` over the whole table. -/
def checkFVGMitigation (candles : List Candle) (fvgs : List FairValueGap) :
    List FairValueGap :=
  fvgs.map (mitigateOne candles)

/-- `isNearStructureEvent`: created within 3 minutes of a BOS/CHOCH. -/
def isNearStructureEvent (events : List BEvent) (fvgTimestamp : ℤ) : Bool :=
  events.any fun e => decide (|fvgTimestamp - e.timestamp| ≤ 3 * 60000)

/-- `calculateFVGQuality`: size points, structure-proximity points and
recency points, capped at 100.  The `ts` parameter is unused in the source
as well. -/
def calculateFVGQuality (sizePercentage : ℚ) (nearStructureEvent : Bool) (ts : ℤ)
    (barsFromEnd : ℕ) : ℚ :=
  let score : ℚ := 0
  let score := if sizePercentage ≥ 1 then score + 40
    else if sizePercentage ≥ 7/10 then score + 30
    else if sizePercentage ≥ 1/2 then score + 20
    else if sizePercentage ≥ 3/10 then score + 10
    else score
  let score := if nearStructureEvent then score + 30 else score
  let score := if barsFromEnd ≤ 5 then score + 30
    else if barsFromEnd ≤ 10 then score + 20
    else if barsFromEnd ≤ 20 then score + 10
    else score
  min 100 score

/-- The id string `FVG_${i}_${direction}_${Date.now()}`. -/
def mkFVGId (i : ℕ) (dir : String) (now : ℤ) : String :=
  "FVG_" ++ toString i ++ "_" ++ dir ++ "_" ++ toString now

/-- One iteration of the creation loop of `detectFairValueGaps`: for
`i ≥ 2` the bullish test `high[i−2] < low[i]` and the bearish test
`low[i−2] > high[i]`, each kept only when the gap size reaches
`minFVGSize` percent. -/
def createFVGStep (P : AnalyzerParams) (events : List BEvent) (candles : List Candle)
    (now : ℤ) (acc : List FairValueGap) (i : ℕ) : List FairValueGap :=
  if i < 2 then acc
  else
    let candle0 := candles.getD i default
    let candle1 := candles.getD (i - 1) default
    let candle2 := candles.getD (i - 2) default
    let acc :=
      if candle2.high < candle0.low then
        let sizePercentage := (candle0.low - candle2.high) / candle1.close * 100
        if sizePercentage ≥ P.minFVGSize then
          let near := isNearStructureEvent events candle0.timestamp
          acc ++ [⟨mkFVGId i ("bullish") now, candle0.low, candle2.high, sizePercentage,
            candle0.timestamp, Dir.bullish, false, none,
            calculateFVGQuality sizePercentage near candle0.timestamp (candles.length - i), near⟩]
        else acc
      else acc
    if candle2.low > candle0.high then
      let sizePercentage := (candle2.low - candle0.high) / candle1.close * 100
      if sizePercentage ≥ P.minFVGSize then
        let near := isNearStructureEvent events candle0.timestamp
        acc ++ [⟨mkFVGId i ("bearish") now, candle2.low, candle0.high, sizePercentage,
          candle0.timestamp, Dir.bearish, false, none,
          calculateFVGQuality sizePercentage near candle0.timestamp (candles.length - i), near⟩]
      else acc
    else acc

/-- The creation loop of `detectFairValueGaps` over all candle indices. -/
def createFVGs (P : AnalyzerParams) (events : List BEvent) (candles : List Candle)
    (now : ℤ) : List FairValueGap :=
  (List.range candles.length).foldl (createFVGStep P events candles now) []

/-- `pruneFVGs`: drops gaps older than `50 · 5` minutes relative to the
ambient clock and gaps of quality below 20. -/
def pruneFVGs (now : ℤ) (fvgs : List FairValueGap) : List FairValueGap :=
  fvgs.filter fun f =>
    let age := ((now - f.timestamp : ℤ) : ℚ) / (1000 * 60)
    decide (¬ age > 50 * 5) && decide (¬ f.qualityScore < 20)

/-- `detectFairValueGaps` of `routes.ts`: creation, then mitigation, then
pruning. -/
def detectFairValueGaps (P : AnalyzerParams) (events : List BEvent)
    (candles : List Candle) (now : ℤ) : List FairValueGap :=
  pruneFVGs now (checkFVGMitigation candles (createFVGs P events candles now))

/-- `determineMarketStructure` from the most recent event. -/
def determineMarketStructure (events : List BEvent) : MStructure :=
  match events.getLast? with
  | none => MStructure.neutral
  | some e =>
    match e.type, e.direction with
    | EType.CHOCH, Dir.bullish => MStructure.bullishCHoCH
    | EType.CHOCH, Dir.bearish => MStructure.bearishCHoCH
    | EType.BOS, Dir.bullish => MStructure.bullish
    | EType.BOS, Dir.bearish => MStructure.bearish

/-- `calculateTrendStrength` over the last 20 candles. -/
def calculateTrendStrength (candles : List Candle) : ℚ :=
  if candles.length < 20 then 50
  else
    let recentCandles := candles.drop (candles.length - 20)
    let bullishCandles := (recentCandles.filter (fun c => c.close > c.open_)).length
    let totalMove := (recentCandles.map (fun c => |c.close - c.open_|)).sum
    let bullishPercentage := (bullishCandles : ℚ) / recentCandles.length * 100
    let avgCandleSize := totalMove / recentCandles.length
    let lastClose := ((recentCandles.getLast?).getD default).close
    let volFactor := avgCandleSize / lastClose * 100
    min 100 (max 0 (bullishPercentage + volFactor * 5))

/-- `calculateStructureConfidence` over the last five events. -/
def calculateStructureConfidence (events : List BEvent) : ℚ :=
  let recentEvents := events.drop (events.length - 5)
  if recentEvents.length = 0 then 0
  else
    match recentEvents.getLast? with
    | none => 0
    | some lastE =>
      let confidence : ℚ := 50 + recentEvents.length * 10
      let majorBreaks := (recentEvents.filter (fun e => e.significance = Sig.major)).length
      let confidence := confidence + majorBreaks * 15
      let consistentEvents :=
        (recentEvents.filter (fun e => e.direction = lastE.direction)).length
      min 100 (max 0 (confidence + (consistentEvents : ℚ) / recentEvents.length * 20))

/-- `getActiveFVGs`: unmitigated gaps, last five, newest first (stable
descending sort by timestamp). -/
def getActiveFVGs (fvgs : List FairValueGap) : List FairValueGap :=
  let active := fvgs.filter fun f => f.isMitigated = false
  List.insertionSort (fun a b => b.timestamp ≤ a.timestamp) (active.drop (active.length - 5))

/-- `getRecentSwingPoints`: last `count` swings, newest first. -/
def getRecentSwingPoints (sps : List SwingPoint) (count : ℕ) : List SwingPoint :=
  List.insertionSort (fun a b => b.timestamp ≤ a.timestamp) (sps.drop (sps.length - count))

/-- `getDefaultAnalysis`. -/
def defaultAnalysis : MarketStructureAnalysis :=
  ⟨MStructure.neutral, none, [], [], 50, 0⟩

/-- `analyzeMarketStructure` of `routes.ts`.  The ambient clock consumed by
the FVG ids and by `pruneFVGs` is the explicit `now`. -/
def analyzeMarketStructure (P : AnalyzerParams) (candles : List Candle) (now : ℤ) :
    MarketStructureAnalysis :=
  if candles.length < P.lookbackWindow + 3 then defaultAnalysis
  else
    let swingPoints := detectSwingPoints P candles
    let events := detectBOSCHOCH P candles
    let fvgs := detectFairValueGaps P events candles now
    { currentStructure := determineMarketStructure events
      lastBOSCHOCH := events.getLast?
      activeFVGs := getActiveFVGs fvgs
      recentSwingPoints := getRecentSwingPoints swingPoints 10
      trendStrength := calculateTrendStrength candles
      structureConfidence := calculateStructureConfidence events }

/-- Per-timeframe entry of the batch analyzer (`TimeframeData`). -/
structure TimeframeData where
  timeframe : String
  analysis : MarketStructureAnalysis
  hasValidSignal : Bool
  proximityToStructure : ℚ
deriving DecidableEq, Repr

/-- Cross-timeframe result of the batch analyzer (`StockSMCResult`). -/
structure StockSMCResult where
  symbol : String
  companyName : String
  currentPrice : ℚ
  timeframes : List TimeframeData
  matchingTimeframes : ℕ
  overallStructure : MStructure
  latestBOSCHOCH : String
  totalFVGZones : ℕ
  avgProximity : ℚ
  structureConfidence : ℚ
  lastUpdated : ℤ
deriving DecidableEq, Repr

instance : Inhabited StockSMCResult :=
  ⟨⟨"", "", 0, [], 0, MStructure.neutral, "", 0, 0, 0, 0⟩⟩

/-- `BatchSMCAnalyzer.minTimeframeMatches`. -/
def minTimeframeMatches : ℕ := 2

/-- `hasValidStructureSignal`: non-neutral structure, an event present, and
confidence strictly above 50. -/
def hasValidStructureSignal (a : MarketStructureAnalysis) : Bool :=
  decide (a.currentStructure ≠ MStructure.neutral) &&
  decide (a.lastBOSCHOCH ≠ none) &&
  decide (a.structureConfidence > 50)

/-- `calculateProximityToStructure`: percentage distance of the current
price from the last event's price, 100 when there is no event. -/
def calculateProximityToStructure (currentPrice : ℚ) (lastEvent : Option BEvent) : ℚ :=
  match lastEvent with
  | none => 100
  | some e => |currentPrice - e.price| / currentPrice * 100

/-- `getTimeAgo`, with JavaScript `Math.floor` division (`Int.fdiv`). -/
def getTimeAgo (now ts : ℤ) : String :=
  let diffMs := now - ts
  let diffHours := Int.fdiv diffMs (1000 * 60 * 60)
  let diffMinutes := Int.fdiv diffMs (1000 * 60)
  if diffHours > 0 then toString diffHours ++ "h ago"
  else toString diffMinutes ++ "m ago"

/-- `formatLatestBOSCHOCH`. -/
def formatLatestBOSCHOCH (now : ℤ) (analysis : Option MarketStructureAnalysis) : String :=
  match analysis with
  | none => "None"
  | some a =>
    match a.lastBOSCHOCH with
    | none => "None"
    | some e =>
      let tName := match e.type with
        | EType.BOS => "BOS"
        | EType.CHOCH => "CHOCH"
      let dName := match e.direction with
        | Dir.bullish => "bullish"
        | Dir.bearish => "bearish"
      tName ++ " " ++ dName ++ " (" ++ getTimeAgo now e.timestamp ++ ")"

/-- The pure assembly of `BatchSMCAnalyzer.analyzeStock`.  The per-timeframe
analyses, the current price and the company name are inputs: in the source
they come from the network and from a randomized candle mock (design note
9(b) of the specification), which a deterministic embedding abstracts. -/
def assembleStock (symbol companyName : String) (currentPrice : ℚ)
    (tfAnalyses : List (String × MarketStructureAnalysis)) (now : ℤ) :
    Option StockSMCResult :=
  let timeframeResults : List TimeframeData := tfAnalyses.map fun p =>
    ⟨p.1, p.2, hasValidStructureSignal p.2,
      calculateProximityToStructure currentPrice p.2.lastBOSCHOCH⟩
  let validEntries := timeframeResults.filter fun tf => tf.hasValidSignal
  let validTimeframes := validEntries.length
  let proximitySum := (validEntries.map fun tf => tf.proximityToStructure).sum
  let overallConfidence := (validEntries.map fun tf => tf.analysis.structureConfidence).sum
  let totalFVGZones := (timeframeResults.map fun tf => tf.analysis.activeFVGs.length).sum
  if validTimeframes < minTimeframeMatches then none
  else
    let sortedValid := List.insertionSort
      (fun a b => b.analysis.structureConfidence ≤ a.analysis.structureConfidence) validEntries
    let top := sortedValid.head?
    some
      { symbol := symbol
        companyName := companyName
        currentPrice := currentPrice
        timeframes := timeframeResults
        matchingTimeframes := validTimeframes
        overallStructure := ((top.map fun tf => tf.analysis.currentStructure).getD MStructure.neutral)
        latestBOSCHOCH := formatLatestBOSCHOCH now (top.map fun tf => tf.analysis)
        totalFVGZones := totalFVGZones
        avgProximity := if validTimeframes > 0 then proximitySum / validTimeframes else 0
        structureConfidence := if validTimeframes > 0 then overallConfidence / validTimeframes else 0
        lastUpdated := now }

/-- `BatchSMCAnalyzer.analyzeBatch`: per-symbol analysis (abstracted as the
`stockData` input), the minimum-match filter, and the stable sort by
matching timeframes then confidence, both descending. -/
def analyzeBatch (stockData : String → Option (String × ℚ × List (String × MarketStructureAnalysis)))
    (symbols : List String) (now : ℤ) : List StockSMCResult :=
  let results := symbols.filterMap fun sym =>
    match stockData sym with
    | none => none
    | some (companyName, price, tfs) =>
      match assembleStock sym companyName price tfs now with
      | none => none
      | some r => if r.matchingTimeframes ≥ minTimeframeMatches then some r else none
  List.insertionSort
    (fun a b => b.matchingTimeframes < a.matchingTimeframes ∨
      (a.matchingTimeframes = b.matchingTimeframes ∧
        b.structureConfidence ≤ a.structureConfidence)) results

/-- Notification kinds (`NotificationType`). -/
inductive NotificationType where
  | bosEntry
  | bosBreak
  | fvgMitigated
  | trendChange
  | priceAlert
deriving DecidableEq, Repr

/-- Notification priorities. -/
inductive NPriority where
  | low
  | medium
  | high
deriving DecidableEq, Repr

/-- A notification, from the `Notification` shape used by the service. -/
structure Notification where
  id : String
  stockSymbol : String
  type : NotificationType
  message : String
  timestamp : ℤ
  read : Bool
  priority : NPriority
deriving DecidableEq, Repr

/-- `NotificationService.createNotification`: prepend, keep the newest 100.
The random client id and the clock are explicit parameters. -/
def createNotification (id : String) (stockSymbol : String) (type : NotificationType)
    (message : String) (priority : NPriority) (now : ℤ)
    (notifications : List Notification) : List Notification :=
  (⟨id, stockSymbol, type, message, now, false, priority⟩ :: notifications).take 100

/-- The view of a stock row consumed by `checkForAlerts`. -/
structure StockView where
  symbol : String
  price : ℚ
  distance : ℚ
  proximityZone : String
  trend : String
deriving DecidableEq, Repr

/-- `NotificationService.checkForAlerts`: the three trigger rules, in
source order, each creating one notification when its edge condition holds.
Price formatting inside messages is abstracted to `toString`; `mkId`
supplies the random ids of the source. -/
def checkForAlerts (previousStock currentStock : Option StockView)
    (favoriteStocks : List String) (mkId : ℕ → String) (now : ℤ)
    (notifications : List Notification) : List Notification :=
  match previousStock, currentStock with
  | some prev, some curr =>
    let st := notifications
    let st := if prev.distance > 3 ∧ curr.distance ≤ 2 then
        createNotification (mkId 0) curr.symbol NotificationType.bosEntry
          (curr.symbol ++ " entering BOS/CHOCH zone at " ++ toString curr.price)
          NPriority.high now st
      else st
    let st := if prev.proximityZone ≠ "NEUTRAL" ∧ curr.proximityZone = "NEUTRAL" then
        createNotification (mkId 1) curr.symbol NotificationType.bosBreak
          (curr.symbol ++ " broke BOS level - price at " ++ toString curr.price)
          NPriority.high now st
      else st
    let st := if prev.trend ≠ curr.trend then
        createNotification (mkId 2) curr.symbol NotificationType.trendChange
          (curr.symbol ++ " trend changed from " ++ prev.trend ++ " to " ++ curr.trend)
          NPriority.medium now st
      else st
    st
  | _, _ => notifications

/-- ASCII lower-casing of one character, as JavaScript `toLowerCase` acts on
the symbols involved. -/
def lowerChar (ch : Char) : Char :=
  if 65 ≤ ch.toNat ∧ ch.toNat ≤ 90 then Char.ofNat (ch.toNat + 32) else ch

/-- String lower-casing. -/
def lowerStr (s : String) : String := ⟨s.data.map lowerChar⟩

/-- `replace(/[-_]/g, '')`: dropping dashes and underscores. -/
def stripDashes (s : String) : String :=
  ⟨s.data.filter fun ch => ch ≠ '-' ∧ ch ≠ '_'⟩

/-- JavaScript `includes`: substring containment. -/
def containsSub (s sub : String) : Bool := decide (sub.data <:+: s.data)

/-- The match predicate of the SECOND registration of `/api/stocks/search`
(the variant with the index alias table): direct or dash-stripped substring
match, plus the special index and BHARTIARTL aliases.  The handler
lower-cases the query once into `searchQuery` and again into `searchTerm`.
This registration is unreachable: the same `registerRoutes` registers the
same path earlier with a plain substring handler (`liveMatchesStock`
below), and Express dispatches a request to the first matching handler,
which always responds and never passes the request on. -/
def matchesStock (stockSymbol query : String) : Bool :=
  let symbol := lowerStr stockSymbol
  let searchQuery := lowerStr query
  let searchTerm := lowerStr searchQuery
  (containsSub symbol searchTerm ||
    containsSub (stripDashes symbol) (stripDashes searchTerm)) ||
  (symbol == "nifty" &&
    (containsSub searchTerm ("nifty") || containsSub searchTerm ("nif"))) ||
  (symbol == "banknifty" &&
    (containsSub searchTerm ("bank") || containsSub searchTerm ("nifty") ||
      containsSub searchTerm ("banknifty"))) ||
  (symbol == "sensex" &&
    (containsSub searchTerm ("sensex") || containsSub searchTerm ("sens") ||
      containsSub searchTerm ("bse"))) ||
  (symbol == "bhartiartl" &&
    (containsSub searchTerm ("bharti") || containsSub searchTerm ("airtel") ||
      containsSub searchTerm ("bhart")))

/-- The shadowed alias-bearing search handler over a universe of stock
symbols: filter by the match predicate, then `slice(0, 20)`.  Unreachable,
like `matchesStock`. -/
def searchStocks (symbols : List String) (query : String) : List String :=
  (symbols.filter fun s => matchesStock s query).take 20

/-- The match predicate of the FIRST registration of `/api/stocks/search`
in the same `registerRoutes` — the handler Express actually dispatches to:
a plain case-insensitive substring test, with no alias table. -/
def liveMatchesStock (stockSymbol query : String) : Bool :=
  containsSub (lowerStr stockSymbol) (lowerStr query)

/-- The first-registered (live) search handler over a universe of stock
symbols: filter by the substring test, then `slice(0, 10)`. -/
def liveSearchStocks (symbols : List String) (query : String) : List String :=
  (symbols.filter fun s => liveMatchesStock s query).take 10

/-- The match predicate of the `/api/stocks/search` handler of
`routes.ts` (registered once there, hence reachable in that build): direct
or dash-stripped case-insensitive substring test; no alias table either. -/
def routesMatchesStock (stockSymbol query : String) : Bool :=
  let searchQuery := lowerStr query
  containsSub (lowerStr stockSymbol) searchQuery ||
    containsSub (lowerStr (stripDashes stockSymbol)) (stripDashes searchQuery)

/-- The `routes.ts` search handler over a universe of stock symbols:
filter by the match predicate, then `slice(0, 20)`. -/
def routesSearchStocks (symbols : List String) (query : String) : List String :=
  (symbols.filter fun s => routesMatchesStock s query).take 20


/-! ## Specification-side definitions

These restate, in the claims' own words, the quantities the refinement
claims compare against the source embedding above. -/

/-- The volatility factor `f(vRatio)` of claim C4: `0.5` below ratio 1,
`1.5` above 3, else `1`. -/
def specVolFactor (vRatio : ℚ) : ℚ :=
  if vRatio < 1 then 1/2 else if vRatio > 3 then 3/2 else 1

/-- The volatility ratio `ATR(14) / meanPrice(20) · 100` of claim C4, with
`ATR(14)` the analyzer's `calculateATR` over 14 true ranges and
`meanPrice(20)` the mean of `(high+low+close)/3` over the last 20 candles. -/
def specVolRatio (candles : List Candle) : ℚ :=
  calculateATR candles 14 /
    (((candles.drop (candles.length - 20)).map candleHLC).sum / 20) * 100

/-- The lookback of claim C4: `clamp(⌊L0 · f(vRatio)⌋, 5, 30)`. -/
def specLookback (P : AnalyzerParams) (candles : List Candle) : ℕ :=
  (max 5 (min 30 ⌊(P.lookbackWindow : ℚ) * specVolFactor (specVolRatio candles)⌋)).toNat

/-- Claim C4's swing-high criterion at index `i`: every other high in the
window `[i − L, i + L]` lies below `high i` by at least the 0.1 % margin
(the margin taken relative to the candidate high, as in the source). -/
def IsSwingHighSpec (candles : List Candle) (L i : ℕ) : Prop :=
  ∀ j, i - L ≤ j → j ≤ i + L → j ≠ i →
    (candles.getD j default).high < (candles.getD i default).high * (1 - 1/1000)

/-- Claim C4's swing-low criterion, symmetric to the swing-high one. -/
def IsSwingLowSpec (candles : List Candle) (L i : ℕ) : Prop :=
  ∀ j, i - L ≤ j → j ≤ i + L → j ≠ i →
    (candles.getD j default).low > (candles.getD i default).low * (1 + 1/1000)

/-- Claim C5's gap-filling condition on a later candle: `low ≤ lowerBound`
for a bullish gap, `high ≥ upperBound` for a bearish one. -/
def HitsFVG (f : FairValueGap) (c : Candle) : Prop :=
  (f.direction = Dir.bullish ∧ c.low ≤ f.lowerBound) ∨
  (f.direction = Dir.bearish ∧ f.upperBound ≤ c.high)

/-- Claim C2's lock discipline as literally stated: after an emission at
index `i`, no later emission happens at an index below `i + lockBars`. -/
def StrictLockDiscipline (P : AnalyzerParams) (candles : List Candle) : Prop :=
  (detectLog P candles).Pairwise fun p q => p.1 + P.structureLockBars ≤ q.1

/-- Claim C7's de-duplication property of a notification log: equal
`(symbol, type)` pairs are at least one minute apart. -/
def DedupWithinMinute (l : List Notification) : Prop :=
  l.Pairwise fun a b =>
    a.stockSymbol = b.stockSymbol → a.type = b.type → 60000 ≤ |a.timestamp - b.timestamp|

/-! ## Concrete candle series

Hand-built series used by the witnesses and counterexamples. -/

/-- A 40-candle series around price 100: a swing high 103 at index 16, a
swing low 99 at index 24, a bullish breakout close 104 at index 27 and a
bearish crash close 98 at index 35. -/
def exCandle (i : ℕ) : Candle :=
  if i = 16 then ⟨100, 103, 199/2, 100, 1000, (i : ℤ)⟩
  else if i = 24 then ⟨100, 201/2, 99, 100, 1000, (i : ℤ)⟩
  else if i = 27 then ⟨100, 521/5, 499/5, 104, 1000, (i : ℤ)⟩
  else if i = 35 then ⟨100, 1001/10, 979/10, 98, 1000, (i : ℤ)⟩
  else ⟨100, 201/2, 199/2, 100, 1000, (i : ℤ)⟩

/-- The series built from `exCandle`; its event log is a bullish BOS at
index 27 followed by a bearish BOS and a bearish CHOCH both at index 35. -/
def exSeries : List Candle := (List.range 40).map exCandle

/-- A 30-candle series around price 100 whose only swing point is a swing
high 102 at index 15; its adaptive lookback is 10. -/
def c3Candle (i : ℕ) : Candle :=
  if i = 15 then ⟨100, 102, 199/2, 100, 1000, (i : ℤ)⟩
  else ⟨100, 201/2, 199/2, 100, 1000, (i : ℤ)⟩

/-- The series built from `c3Candle`. -/
def c3Series : List Candle := (List.range 30).map c3Candle

/-- A cheap candle whose typical price 99 drags the 20-candle mean price of
`c3Series` below the volatility-ratio threshold, widening the adaptive
lookback from 10 to 20 when appended. -/
def c3X : Candle := ⟨99, 497/5, 493/5, 99, 1000, 30⟩

/-- A baseline candle whose typical price 100 leaves the adaptive lookback
of `c3Series` unchanged when appended. -/
def c3B : Candle := ⟨100, 201/2, 199/2, 100, 1000, 30⟩

/-- A 25-candle series (one-minute timestamps) with a bullish fair value
gap `[100, 101]` created at index 12 and never mitigated. -/
def c8Candle (i : ℕ) : Candle :=
  if i = 10 then ⟨499/5, 100, 497/5, 999/10, 1000, (i : ℤ) * 60000⟩
  else if i = 11 then ⟨100, 1007/10, 999/10, 201/2, 1000, (i : ℤ) * 60000⟩
  else if i ≥ 12 then ⟨203/2, 1023/10, 101, 102, 1000, (i : ℤ) * 60000⟩
  else ⟨100, 201/2, 199/2, 100, 1000, (i : ℤ) * 60000⟩

/-- The series built from `c8Candle`. -/
def c8Series : List Candle := (List.range 25).map c8Candle

/-- Like `c8Series`, but candle 20 dips to low 99.9, mitigating the gap. -/
def c5Candle (i : ℕ) : Candle :=
  if i = 10 then ⟨499/5, 100, 497/5, 999/10, 1000, (i : ℤ) * 60000⟩
  else if i = 11 then ⟨100, 1007/10, 999/10, 201/2, 1000, (i : ℤ) * 60000⟩
  else if i = 20 then ⟨203/2, 1023/10, 999/10, 102, 1000, (i : ℤ) * 60000⟩
  else if i ≥ 12 then ⟨203/2, 1023/10, 101, 102, 1000, (i : ℤ) * 60000⟩
  else ⟨100, 201/2, 199/2, 100, 1000, (i : ℤ) * 60000⟩

/-- The series built from `c5Candle`. -/
def c5Series : List Candle := (List.range 25).map c5Candle

/-- The fair value gap that `c5Series` creates at index 12 and mitigates at
candle 20, as returned by the tracker at clock reading 1500000. -/
def c5FVG : FairValueGap :=
  ⟨"FVG_12_bullish_1500000", 101, 100, 200/201, 720000, Dir.bullish, true, some 1200000,
    40, false⟩

/-- Stock views driving the notification counterexample: the distance drops
from 4 to 1, repeatedly triggering the BOS-entry rule. -/
def cvPrev : StockView := ⟨"RELIANCE", 1500, 4, "UPPER", "BULLISH"⟩

/-- The current stock view of the notification counterexample. -/
def cvCurr : StockView := ⟨"RELIANCE", 1505, 1, "UPPER", "BULLISH"⟩

/-- Two consecutive alert checks 30 seconds apart on the same transition. -/
def cvLog : List Notification :=
  checkForAlerts (some cvPrev) (some cvCurr) [] (fun _ => "id") 30000
    (checkForAlerts (some cvPrev) (some cvCurr) [] (fun _ => "id") 0 [])

/-- A valid per-timeframe analysis used by the batch witness. -/
def wAnalysis (conf : ℚ) : MarketStructureAnalysis :=
  ⟨MStructure.bullish, some (mkEvent EType.BOS Dir.bullish 101 0 100), [], [], 50, conf⟩

/-- Per-symbol input of the batch witness: two valid timeframes. -/
def wStockData (sym : String) : Option (String × ℚ × List (String × MarketStructureAnalysis)) :=
  if sym == "X" then
    some ("X Limited", 100, [("5m", wAnalysis 80), ("15m", wAnalysis 65)])
  else none

/-- The single result the batch witness publishes. -/
def wResult : StockSMCResult := (analyzeBatch wStockData [("X")] 0).headD default

/-! ## Proof-side predicates for the structure state machine -/

/-- Fire condition of the bullish-BOS check at candle `i` in state `s`. -/
def FireBullBOS (P : AnalyzerParams) (highs : List SwingPoint) (c : Candle) (i : ℕ)
    (s : BState) : Prop :=
  ∃ sh, lastSwingBefore highs i = some sh ∧
    c.close > sh.price * (1 + P.bosThreshold / 100) ∧
    validateStructureDistance P sh.price c.close s.lastBear = true

/-- Fire condition of the bearish-BOS check. -/
def FireBearBOS (P : AnalyzerParams) (lows : List SwingPoint) (c : Candle) (i : ℕ)
    (s : BState) : Prop :=
  ∃ sl, lastSwingBefore lows i = some sl ∧
    c.close < sl.price * (1 - P.bosThreshold / 100) ∧
    validateStructureDistance P sl.price c.close s.lastBull = true

/-- Fire condition of the bearish-CHOCH check. -/
def FireBearCHOCH (P : AnalyzerParams) (lows : List SwingPoint) (c : Candle) (i : ℕ)
    (s : BState) : Prop :=
  ∃ b sl, s.lastBull = some b ∧ lastSwingBefore lows i = some sl ∧
    c.close < sl.price * (1 - P.chochThreshold / 100) ∧ b.timestamp < c.timestamp ∧
    validateStructureDistance P sl.price c.close (some b) = true

/-- Fire condition of the bullish-CHOCH check. -/
def FireBullCHOCH (P : AnalyzerParams) (highs : List SwingPoint) (c : Candle) (i : ℕ)
    (s : BState) : Prop :=
  ∃ b sh, s.lastBear = some b ∧ lastSwingBefore highs i = some sh ∧
    c.close > sh.price * (1 + P.chochThreshold / 100) ∧ b.timestamp < c.timestamp ∧
    validateStructureDistance P sh.price c.close (some b) = true

/-- Soundness of one emitted event: its broken level is a swing price of the
right side, beaten by the break price by the threshold matching the event
kind. -/
def EventSound (P : AnalyzerParams) (highs lows : List SwingPoint) (e : BEvent) : Prop :=
  ∃ sp, e.brokenLevel = sp.price ∧
    ((e.direction = Dir.bullish ∧ sp ∈ highs ∧
        sp.price * (1 + (if e.type = EType.BOS then P.bosThreshold else P.chochThreshold) / 100)
          < e.price) ∨
     (e.direction = Dir.bearish ∧ sp ∈ lows ∧
        e.price <
          sp.price * (1 - (if e.type = EType.BOS then P.bosThreshold else P.chochThreshold) / 100)))

/-- The pairwise relation the emission log satisfies: two emissions either
share a candle and a direction, or are at least `structureLockBars` apart. -/
def BRel (P : AnalyzerParams) : ℕ × BEvent → ℕ × BEvent → Prop := fun p q =>
  (p.1 = q.1 ∧ p.2.direction = q.2.direction) ∨ p.1 + P.structureLockBars ≤ q.1

/-- Invariant carried across the candle loop of `detectBOSCHOCH`. -/
def BInv (P : AnalyzerParams) (highs lows : List SwingPoint) (i : ℕ) (s : BState) : Prop :=
  (∀ p ∈ s.log, p.1 < i) ∧
  (s.lastEvt = none → s.log = []) ∧
  (∀ p ∈ s.log, p.1 + P.structureLockBars ≤ s.lockUntil) ∧
  (∀ p ∈ s.log, EventSound P highs lows p.2) ∧
  s.log.Pairwise (BRel P)

/-- The bullish BOS event of `exSeries` at candle index 27. -/
def exEventBOS : BEvent := ⟨EType.BOS, Dir.bullish, 104, 27, 103, Sig.minor⟩

/-! ## Helper lemmas -/

theorem mem_of_getLast?_eq_some {α : Type} {l : List α} {a : α}
    (h : l.getLast? = some a) : a ∈ l := by
  rcases List.getLast?_eq_some_iff.1 h with ⟨ys, rfl⟩
  simp

theorem lastSwingBefore_mem {sps : List SwingPoint} {i : ℕ} {sp : SwingPoint}
    (h : lastSwingBefore sps i = some sp) : sp ∈ sps ∧ sp.index < i := by
  have h' := mem_of_getLast?_eq_some h
  rcases List.mem_filter.1 h' with ⟨hm, hd⟩
  exact ⟨hm, by simpa using hd⟩

theorem swingHighOk_iff (candles : List Candle) (L i : ℕ) (hLi : L ≤ i) :
    swingHighOk candles L i = true ↔ IsSwingHighSpec candles L i := by
  unfold swingHighOk IsSwingHighSpec
  simp only [List.all_eq_true, List.mem_range'_1, Bool.or_eq_true, beq_iff_eq,
    decide_eq_true_eq]
  constructor
  · intro h j h1 h2 hne
    rcases h j ⟨h1, by omega⟩ with h' | h'
    · exact absurd h' hne
    · exact h'
  · intro h j hj
    rcases hj with ⟨h1, h2⟩
    by_cases hji : j = i
    · exact Or.inl hji
    · exact Or.inr (h j h1 (by omega) hji)

theorem swingLowOk_iff (candles : List Candle) (L i : ℕ) (hLi : L ≤ i) :
    swingLowOk candles L i = true ↔ IsSwingLowSpec candles L i := by
  unfold swingLowOk IsSwingLowSpec
  simp only [List.all_eq_true, List.mem_range'_1, Bool.or_eq_true, beq_iff_eq,
    decide_eq_true_eq]
  constructor
  · intro h j h1 h2 hne
    rcases h j ⟨h1, by omega⟩ with h' | h'
    · exact absurd h' hne
    · exact h'
  · intro h j hj
    rcases hj with ⟨h1, h2⟩
    by_cases hji : j = i
    · exact Or.inl hji
    · exact Or.inr (h j h1 (by omega) hji)

theorem mem_detectSwingPoints {P : AnalyzerParams} {candles : List Candle} {sp : SwingPoint} :
    sp ∈ detectSwingPoints P candles ↔
      (dynamicLookback P candles ≤ sp.index ∧
       sp.index + dynamicLookback P candles < candles.length ∧
       ((sp.type = SPType.high ∧
          swingHighOk candles (dynamicLookback P candles) sp.index = true ∧
          sp.price = (candles.getD sp.index default).high ∧
          sp.timestamp = (candles.getD sp.index default).timestamp) ∨
        (sp.type = SPType.low ∧
          swingLowOk candles (dynamicLookback P candles) sp.index = true ∧
          sp.price = (candles.getD sp.index default).low ∧
          sp.timestamp = (candles.getD sp.index default).timestamp))) := by
  unfold detectSwingPoints
  rw [(List.perm_insertionSort _ _).mem_iff, List.mem_append]
  simp only [List.mem_filterMap, List.mem_range]
  constructor
  · rintro (⟨i, hi, hfi⟩ | ⟨i, hi, hfi⟩)
    · split at hfi
      · rcases Option.some_injective _ hfi.symm with rfl
        rename_i hcond
        exact ⟨hcond.1, hcond.2.1, Or.inl ⟨rfl, hcond.2.2, rfl, rfl⟩⟩
      · exact absurd hfi (by simp)
    · split at hfi
      · rcases Option.some_injective _ hfi.symm with rfl
        rename_i hcond
        exact ⟨hcond.1, hcond.2.1, Or.inr ⟨rfl, hcond.2.2, rfl, rfl⟩⟩
      · exact absurd hfi (by simp)
  · rintro ⟨h1, h2, (⟨ht, hok, hp, hts⟩ | ⟨ht, hok, hp, hts⟩)⟩
    · refine Or.inl ⟨sp.index, by omega, ?_⟩
      rw [if_pos ⟨h1, h2, hok⟩]
      congr 1
      cases sp
      simp_all
    · refine Or.inr ⟨sp.index, by omega, ?_⟩
      rw [if_pos ⟨h1, h2, hok⟩]
      congr 1
      cases sp
      simp_all

theorem floor_clamp (x : ℚ) : ⌊max 5 (min 30 x)⌋ = max 5 (min 30 ⌊x⌋) := by
  rcases le_total x 5 with h | h
  · have hx30 : x ≤ 30 := le_trans h (by norm_num)
    have hfx : ⌊x⌋ ≤ 5 := by
      have := Int.floor_le_floor h
      simpa using this
    rw [min_eq_right hx30, max_eq_left h, min_eq_right (le_trans hfx (by norm_num)),
      max_eq_left hfx]
    norm_num
  · have h5 : (5 : ℤ) ≤ ⌊x⌋ := by
      rw [Int.le_floor]
      push_cast
      exact h
    rcases le_total x 30 with h30 | h30
    · have hf30 : ⌊x⌋ ≤ 30 := by
        have := Int.floor_le_floor h30
        simpa using this
      rw [min_eq_right h30, max_eq_right h, min_eq_right hf30, max_eq_right h5]
    · have hf30 : (30 : ℤ) ≤ ⌊x⌋ := by
        rw [Int.le_floor]
        push_cast
        exact h30
      rw [min_eq_left h30, max_eq_right (by norm_num : (5:ℚ) ≤ 30), min_eq_left hf30,
        max_eq_right (by norm_num : (5:ℤ) ≤ 30)]
      norm_num

theorem specLookback_eq (P : AnalyzerParams) (candles : List Candle) :
    specLookback P candles = dynamicLookback P candles := by
  unfold specLookback dynamicLookback specVolRatio specVolFactor
  rw [← floor_clamp]
  congr 2
  split_ifs
  · ring
  · ring
  · ring

theorem detectSwingPoints_price_pos {P : AnalyzerParams} {candles : List Candle}
    (hpos : ∀ c ∈ candles, 0 < c.low ∧ c.low ≤ c.high) :
    ∀ sp ∈ detectSwingPoints P candles, 0 < sp.price := by
  intro sp hsp
  rcases mem_detectSwingPoints.1 hsp with ⟨h1, h2, hcase⟩
  have hidx : sp.index < candles.length := by omega
  have hmem : candles.getD sp.index default ∈ candles := by
    rw [List.getD_eq_getElem _ _ hidx]
    exact List.getElem_mem hidx
  rcases hpos _ hmem with ⟨hl, hlh⟩
  rcases hcase with ⟨_, _, hp, _⟩ | ⟨_, _, hp, _⟩
  · rw [hp]; exact lt_of_lt_of_le hl hlh
  · rw [hp]; exact hl

theorem dynLookback_append_eq_imp {P : AnalyzerParams} {S : List Candle} {x : Candle}
    (hL : dynamicLookback P (S ++ [x]) = dynamicLookback P S) :
    ∀ sp ∈ detectSwingPoints P S, sp ∈ detectSwingPoints P (S ++ [x]) := by
  intro sp hsp
  rcases mem_detectSwingPoints.1 hsp with ⟨h1, h2, hcase⟩
  have hidx : sp.index < S.length := by omega
  have hgetD : ∀ j, j < S.length → (S ++ [x]).getD j default = S.getD j default := by
    intro j hj
    exact List.getD_append _ _ _ _ hj
  rw [mem_detectSwingPoints, hL]
  refine ⟨h1, by simp; omega, ?_⟩
  have hwin : ∀ j ∈ List.range' (sp.index - dynamicLookback P S)
      (2 * dynamicLookback P S + 1), j < S.length := by
    intro j hj
    rcases List.mem_range'_1.1 hj with ⟨hj1, hj2⟩
    omega
  rcases hcase with ⟨ht, hok, hp, hts⟩ | ⟨ht, hok, hp, hts⟩
  · refine Or.inl ⟨ht, ?_, by rw [hgetD _ hidx]; exact hp, by rw [hgetD _ hidx]; exact hts⟩
    unfold swingHighOk at hok ⊢
    simp only [List.all_eq_true] at hok ⊢
    intro j hj
    rw [hgetD _ (hwin j hj), hgetD _ hidx]
    exact hok j hj
  · refine Or.inr ⟨ht, ?_, by rw [hgetD _ hidx]; exact hp, by rw [hgetD _ hidx]; exact hts⟩
    unfold swingLowOk at hok ⊢
    simp only [List.all_eq_true] at hok ⊢
    intro j hj
    rw [hgetD _ (hwin j hj), hgetD _ hidx]
    exact hok j hj

/-- Claim C4: the swing detector marks exactly the candles whose high
(resp. low) beats every neighbour within the adaptive lookback window
`clamp(⌊L0 · f(vRatio)⌋, 5, 30)` by the 0.1 % margin.  (Membership also
fixes the recorded price and timestamp to those of the candle.) -/
theorem claim_C4_swing_detector (P : AnalyzerParams) (candles : List Candle)
    (sp : SwingPoint) :
    sp ∈ detectSwingPoints P candles ↔
      (specLookback P candles ≤ sp.index ∧
       sp.index + specLookback P candles < candles.length ∧
       ((sp.type = SPType.high ∧
          IsSwingHighSpec candles (specLookback P candles) sp.index ∧
          sp.price = (candles.getD sp.index default).high ∧
          sp.timestamp = (candles.getD sp.index default).timestamp) ∨
        (sp.type = SPType.low ∧
          IsSwingLowSpec candles (specLookback P candles) sp.index ∧
          sp.price = (candles.getD sp.index default).low ∧
          sp.timestamp = (candles.getD sp.index default).timestamp))) := by
  rw [mem_detectSwingPoints, specLookback_eq]
  constructor
  · rintro ⟨h1, h2, hcase⟩
    refine ⟨h1, h2, ?_⟩
    rcases hcase with ⟨ht, hok, hp, hts⟩ | ⟨ht, hok, hp, hts⟩
    · exact Or.inl ⟨ht, (swingHighOk_iff _ _ _ h1).1 hok, hp, hts⟩
    · exact Or.inr ⟨ht, (swingLowOk_iff _ _ _ h1).1 hok, hp, hts⟩
  · rintro ⟨h1, h2, hcase⟩
    refine ⟨h1, h2, ?_⟩
    rcases hcase with ⟨ht, hok, hp, hts⟩ | ⟨ht, hok, hp, hts⟩
    · exact Or.inl ⟨ht, (swingHighOk_iff _ _ _ h1).2 hok, hp, hts⟩
    · exact Or.inr ⟨ht, (swingLowOk_iff _ _ _ h1).2 hok, hp, hts⟩

set_option maxRecDepth 40000 in
unseal Rat.add Rat.mul Rat.sub Rat.inv in
/-- Claim C3, counterexample: on the concrete series `c3Series`, the swing
high at index 15 is detected, yet after appending the single candle `c3X`
(which widens the adaptive lookback from 10 to 20) it is no longer
detected — appending is not monotone. -/
theorem claim_C3_counterexample :
    (⟨15, 102, SPType.high, (15 : ℤ)⟩ : SwingPoint) ∈ detectSwingPoints defaultParams c3Series ∧
    (⟨15, 102, SPType.high, (15 : ℤ)⟩ : SwingPoint) ∉
      detectSwingPoints defaultParams (c3Series ++ [c3X]) := by
  constructor
  · decide
  · decide

/-- Claim C3, amended: appending one candle preserves every detected swing
point provided the adaptive lookback is unchanged by the append (the
counterexample shows the unrestricted claim fails when the appended candle
shifts the volatility ratio across a lookback threshold). -/
theorem claim_C3_amended (P : AnalyzerParams) (S : List Candle) (x : Candle)
    (hL : dynamicLookback P (S ++ [x]) = dynamicLookback P S) :
    ∀ sp ∈ detectSwingPoints P S, sp ∈ detectSwingPoints P (S ++ [x]) :=
  dynLookback_append_eq_imp hL

set_option maxRecDepth 40000 in
unseal Rat.add Rat.mul Rat.sub Rat.inv in
/-- Witness for the amended C3: appending the neutral candle `c3B` keeps
the lookback at 10 and the swing at index 15 survives. -/
theorem claim_C3_amended_witness :
    dynamicLookback defaultParams (c3Series ++ [c3B]) = dynamicLookback defaultParams c3Series ∧
    (⟨15, 102, SPType.high, (15 : ℤ)⟩ : SwingPoint) ∈
      detectSwingPoints defaultParams (c3Series ++ [c3B]) := by
  refine ⟨by decide, ?_⟩
  exact claim_C3_amended defaultParams c3Series c3B (by decide)
    ⟨15, 102, SPType.high, (15 : ℤ)⟩ (by decide)

theorem validate_self_false {P : AnalyzerParams} {price level : ℚ} {e : BEvent}
    (hlevel : 0 < level) (hd : 0 < P.minStructureDistance) (hep : e.price = price) :
    validateStructureDistance P level price (some e) = false := by
  unfold validateStructureDistance
  rw [decide_eq_false_iff_not, hep]
  push_neg
  simp only [sub_self, abs_zero]
  positivity

theorem bullishBOSStep_fire {P : AnalyzerParams} {highs : List SwingPoint} {c : Candle}
    {i : ℕ} {s : BState} (h : FireBullBOS P highs c i s) :
    ∃ sh, lastSwingBefore highs i = some sh ∧
      c.close > sh.price * (1 + P.bosThreshold / 100) ∧
      bullishBOSStep P highs c i s =
        ⟨some (mkEvent EType.BOS Dir.bullish c.close c.timestamp sh.price), s.lastBear,
         some (mkEvent EType.BOS Dir.bullish c.close c.timestamp sh.price),
         i + P.structureLockBars,
         s.log ++ [(i, mkEvent EType.BOS Dir.bullish c.close c.timestamp sh.price)]⟩ := by
  rcases h with ⟨sh, hsh, h1, h2⟩
  refine ⟨sh, hsh, h1, ?_⟩
  simp only [bullishBOSStep, hsh]
  rw [if_pos ⟨h1, h2⟩]

theorem bullishBOSStep_not_fire {P : AnalyzerParams} {highs : List SwingPoint} {c : Candle}
    {i : ℕ} {s : BState} (h : ¬ FireBullBOS P highs c i s) :
    bullishBOSStep P highs c i s = s := by
  unfold bullishBOSStep
  cases hsh : lastSwingBefore highs i with
  | none => rfl
  | some sh =>
    dsimp only
    rw [if_neg]
    intro hcond
    exact h ⟨sh, hsh, hcond.1, hcond.2⟩

theorem bearishBOSStep_fire {P : AnalyzerParams} {lows : List SwingPoint} {c : Candle}
    {i : ℕ} {s : BState} (h : FireBearBOS P lows c i s) :
    ∃ sl, lastSwingBefore lows i = some sl ∧
      c.close < sl.price * (1 - P.bosThreshold / 100) ∧
      bearishBOSStep P lows c i s =
        ⟨s.lastBull, some (mkEvent EType.BOS Dir.bearish c.close c.timestamp sl.price),
         some (mkEvent EType.BOS Dir.bearish c.close c.timestamp sl.price),
         i + P.structureLockBars,
         s.log ++ [(i, mkEvent EType.BOS Dir.bearish c.close c.timestamp sl.price)]⟩ := by
  rcases h with ⟨sl, hsl, h1, h2⟩
  refine ⟨sl, hsl, h1, ?_⟩
  simp only [bearishBOSStep, hsl]
  rw [if_pos ⟨h1, h2⟩]

theorem bearishBOSStep_not_fire {P : AnalyzerParams} {lows : List SwingPoint} {c : Candle}
    {i : ℕ} {s : BState} (h : ¬ FireBearBOS P lows c i s) :
    bearishBOSStep P lows c i s = s := by
  unfold bearishBOSStep
  cases hsl : lastSwingBefore lows i with
  | none => rfl
  | some sl =>
    dsimp only
    rw [if_neg]
    intro hcond
    exact h ⟨sl, hsl, hcond.1, hcond.2⟩

theorem bearishCHOCHStep_fire {P : AnalyzerParams} {lows : List SwingPoint} {c : Candle}
    {i : ℕ} {s : BState} (h : FireBearCHOCH P lows c i s) :
    ∃ b sl, s.lastBull = some b ∧ lastSwingBefore lows i = some sl ∧
      c.close < sl.price * (1 - P.chochThreshold / 100) ∧
      bearishCHOCHStep P lows c i s =
        ⟨none, s.lastBear, some (mkEvent EType.CHOCH Dir.bearish c.close c.timestamp sl.price),
         i + P.structureLockBars,
         s.log ++ [(i, mkEvent EType.CHOCH Dir.bearish c.close c.timestamp sl.price)]⟩ := by
  rcases h with ⟨b, sl, hb, hsl, h1, h2, h3⟩
  refine ⟨b, sl, hb, hsl, h1, ?_⟩
  simp only [bearishCHOCHStep, hb, hsl]
  rw [if_pos ⟨h1, h2, h3⟩]

theorem bearishCHOCHStep_not_fire {P : AnalyzerParams} {lows : List SwingPoint} {c : Candle}
    {i : ℕ} {s : BState} (h : ¬ FireBearCHOCH P lows c i s) :
    bearishCHOCHStep P lows c i s = s := by
  unfold bearishCHOCHStep
  cases hb : s.lastBull with
  | none => rfl
  | some b =>
    cases hsl : lastSwingBefore lows i with
    | none => rfl
    | some sl =>
      dsimp only
      rw [if_neg]
      intro hcond
      exact h ⟨b, sl, hb, hsl, hcond.1, hcond.2.1, hcond.2.2⟩

theorem bullishCHOCHStep_fire {P : AnalyzerParams} {highs : List SwingPoint} {c : Candle}
    {i : ℕ} {s : BState} (h : FireBullCHOCH P highs c i s) :
    ∃ b sh, s.lastBear = some b ∧ lastSwingBefore highs i = some sh ∧
      c.close > sh.price * (1 + P.chochThreshold / 100) ∧
      bullishCHOCHStep P highs c i s =
        ⟨s.lastBull, none, some (mkEvent EType.CHOCH Dir.bullish c.close c.timestamp sh.price),
         i + P.structureLockBars,
         s.log ++ [(i, mkEvent EType.CHOCH Dir.bullish c.close c.timestamp sh.price)]⟩ := by
  rcases h with ⟨b, sh, hb, hsh, h1, h2, h3⟩
  refine ⟨b, sh, hb, hsh, h1, ?_⟩
  simp only [bullishCHOCHStep, hb, hsh]
  rw [if_pos ⟨h1, h2, h3⟩]

theorem bullishCHOCHStep_not_fire {P : AnalyzerParams} {highs : List SwingPoint} {c : Candle}
    {i : ℕ} {s : BState} (h : ¬ FireBullCHOCH P highs c i s) :
    bullishCHOCHStep P highs c i s = s := by
  unfold bullishCHOCHStep
  cases hb : s.lastBear with
  | none => rfl
  | some b =>
    cases hsh : lastSwingBefore highs i with
    | none => rfl
    | some sh =>
      dsimp only
      rw [if_neg]
      intro hcond
      exact h ⟨b, sh, hb, hsh, hcond.1, hcond.2.1, hcond.2.2⟩

theorem eventSound_bullBOS {P : AnalyzerParams} {highs lows : List SwingPoint} {c : Candle}
    {i : ℕ} {sh : SwingPoint} (hsh : lastSwingBefore highs i = some sh)
    (hc : c.close > sh.price * (1 + P.bosThreshold / 100)) :
    EventSound P highs lows (mkEvent EType.BOS Dir.bullish c.close c.timestamp sh.price) := by
  refine ⟨sh, rfl, Or.inl ⟨rfl, (lastSwingBefore_mem hsh).1, ?_⟩⟩
  simpa [mkEvent] using hc

theorem eventSound_bearBOS {P : AnalyzerParams} {highs lows : List SwingPoint} {c : Candle}
    {i : ℕ} {sl : SwingPoint} (hsl : lastSwingBefore lows i = some sl)
    (hc : c.close < sl.price * (1 - P.bosThreshold / 100)) :
    EventSound P highs lows (mkEvent EType.BOS Dir.bearish c.close c.timestamp sl.price) := by
  refine ⟨sl, rfl, Or.inr ⟨rfl, (lastSwingBefore_mem hsl).1, ?_⟩⟩
  simpa [mkEvent] using hc

theorem eventSound_bearCHOCH {P : AnalyzerParams} {highs lows : List SwingPoint} {c : Candle}
    {i : ℕ} {sl : SwingPoint} (hsl : lastSwingBefore lows i = some sl)
    (hc : c.close < sl.price * (1 - P.chochThreshold / 100)) :
    EventSound P highs lows (mkEvent EType.CHOCH Dir.bearish c.close c.timestamp sl.price) := by
  refine ⟨sl, rfl, Or.inr ⟨rfl, (lastSwingBefore_mem hsl).1, ?_⟩⟩
  simpa [mkEvent] using hc

theorem eventSound_bullCHOCH {P : AnalyzerParams} {highs lows : List SwingPoint} {c : Candle}
    {i : ℕ} {sh : SwingPoint} (hsh : lastSwingBefore highs i = some sh)
    (hc : c.close > sh.price * (1 + P.chochThreshold / 100)) :
    EventSound P highs lows (mkEvent EType.CHOCH Dir.bullish c.close c.timestamp sh.price) := by
  refine ⟨sh, rfl, Or.inl ⟨rfl, (lastSwingBefore_mem hsh).1, ?_⟩⟩
  simpa [mkEvent] using hc

theorem processCandle_cases (P : AnalyzerParams) (highs lows : List SwingPoint)
    (c : Candle) (i : ℕ) (s : BState)
    (hposH : ∀ sp ∈ highs, 0 < sp.price) (hposL : ∀ sp ∈ lows, 0 < sp.price)
    (hd : 0 < P.minStructureDistance) (hbc : P.bosThreshold ≤ P.chochThreshold) :
    processCandle P highs lows c i s = s ∨
    (¬ (i < s.lockUntil ∧ s.lastEvt ≠ none) ∧
     (processCandle P highs lows c i s).lockUntil = i + P.structureLockBars ∧
     (processCandle P highs lows c i s).lastEvt ≠ none ∧
     ((∃ e, EventSound P highs lows e ∧
         (processCandle P highs lows c i s).log = s.log ++ [(i, e)]) ∨
      (∃ e₁ e₂, EventSound P highs lows e₁ ∧ EventSound P highs lows e₂ ∧
         e₁.direction = e₂.direction ∧
         (processCandle P highs lows c i s).log = s.log ++ [(i, e₁), (i, e₂)]))) := by
  by_cases hskip : i < s.lockUntil ∧ s.lastEvt ≠ none
  · left
    unfold processCandle
    rw [if_pos hskip]
  have hpc : processCandle P highs lows c i s =
      bullishCHOCHStep P highs c i (bearishCHOCHStep P lows c i
        (bearishBOSStep P lows c i (bullishBOSStep P highs c i s))) := by
    unfold processCandle
    rw [if_neg hskip]
  by_cases h1 : FireBullBOS P highs c i s
  · -- bullish BOS fires; bearish BOS and bearish CHOCH are blocked
    rcases bullishBOSStep_fire h1 with ⟨sh, hsh, hc1, heq1⟩
    have hshpos : 0 < sh.price := hposH sh (lastSwingBefore_mem hsh).1
    set e1 := mkEvent EType.BOS Dir.bullish c.close c.timestamp sh.price with he1
    set s1 : BState :=
      ⟨some e1, s.lastBear, some e1, i + P.structureLockBars, s.log ++ [(i, e1)]⟩ with hs1
    rw [hs1] at heq1
    have h2 : ¬ FireBearBOS P lows c i s1 := by
      rintro ⟨sl, hsl, hc2, hv2⟩
      have hslpos : 0 < sl.price := hposL sl (lastSwingBefore_mem hsl).1
      have : validateStructureDistance P sl.price c.close (some e1) = false :=
        validate_self_false hslpos hd rfl
      rw [show s1.lastBull = some e1 from rfl] at hv2
      rw [this] at hv2
      cases hv2
    have h3 : ¬ FireBearCHOCH P lows c i s1 := by
      rintro ⟨b, sl, hb, hsl, hc3, hts, hv3⟩
      rw [show s1.lastBull = some e1 from rfl] at hb
      rcases Option.some_injective _ hb with rfl
      have : e1.timestamp = c.timestamp := rfl
      omega
    have hsound1 : EventSound P highs lows e1 := eventSound_bullBOS hsh hc1
    rw [hpc, heq1, bearishBOSStep_not_fire h2, bearishCHOCHStep_not_fire h3]
    by_cases h4 : FireBullCHOCH P highs c i s1
    · rcases bullishCHOCHStep_fire h4 with ⟨b, sh4, hb4, hsh4, hc4, heq4⟩
      rw [heq4]
      refine Or.inr ⟨hskip, rfl, by simp, Or.inr
        ⟨e1, mkEvent EType.CHOCH Dir.bullish c.close c.timestamp sh4.price,
         hsound1, eventSound_bullCHOCH hsh4 hc4, rfl, ?_⟩⟩
      show (s.log ++ [(i, e1)]) ++ [(i, _)] = _
      simp
    · rw [bullishCHOCHStep_not_fire h4]
      exact Or.inr ⟨hskip, rfl, by simp, Or.inl ⟨e1, hsound1, rfl⟩⟩
  · -- bullish BOS does not fire
    rw [hpc, bullishBOSStep_not_fire h1]
    by_cases h2 : FireBearBOS P lows c i s
    · -- bearish BOS fires; bullish CHOCH is blocked
      rcases bearishBOSStep_fire h2 with ⟨sl, hsl, hc2, heq2⟩
      set e2 := mkEvent EType.BOS Dir.bearish c.close c.timestamp sl.price with he2
      set s2 : BState :=
        ⟨s.lastBull, some e2, some e2, i + P.structureLockBars, s.log ++ [(i, e2)]⟩ with hs2
      rw [hs2] at heq2
      have hsound2 : EventSound P highs lows e2 := eventSound_bearBOS hsl hc2
      rw [heq2]
      by_cases h3 : FireBearCHOCH P lows c i s2
      · rcases bearishCHOCHStep_fire h3 with ⟨b, sl3, hb3, hsl3, hc3, heq3⟩
        set e3 := mkEvent EType.CHOCH Dir.bearish c.close c.timestamp sl3.price with he3
        set s3 : BState :=
          ⟨none, s2.lastBear, some e3, i + P.structureLockBars, s2.log ++ [(i, e3)]⟩ with hs3
        rw [hs3] at heq3
        have h4 : ¬ FireBullCHOCH P highs c i s3 := by
          rintro ⟨b4, sh4, hb4, hsh4, hc4, hts4, hv4⟩
          rw [show s3.lastBear = some e2 from rfl] at hb4
          rcases Option.some_injective _ hb4 with rfl
          have : e2.timestamp = c.timestamp := rfl
          omega
        rw [heq3, bullishCHOCHStep_not_fire h4]
        refine Or.inr ⟨hskip, rfl, by simp, Or.inr
          ⟨e2, e3, hsound2, eventSound_bearCHOCH hsl3 hc3, rfl, ?_⟩⟩
        show (s.log ++ [(i, e2)]) ++ [(i, e3)] = _
        simp
      · rw [bearishCHOCHStep_not_fire h3]
        have h4 : ¬ FireBullCHOCH P highs c i s2 := by
          rintro ⟨b4, sh4, hb4, hsh4, hc4, hts4, hv4⟩
          rw [show s2.lastBear = some e2 from rfl] at hb4
          rcases Option.some_injective _ hb4 with rfl
          have : e2.timestamp = c.timestamp := rfl
          omega
        rw [bullishCHOCHStep_not_fire h4]
        exact Or.inr ⟨hskip, rfl, by simp, Or.inl ⟨e2, hsound2, rfl⟩⟩
    · -- neither BOS fires
      rw [bearishBOSStep_not_fire h2]
      by_cases h3 : FireBearCHOCH P lows c i s
      · -- bearish CHOCH fires; bullish CHOCH is blocked via the unfired bullish BOS
        rcases bearishCHOCHStep_fire h3 with ⟨b, sl3, hb3, hsl3, hc3, heq3⟩
        set e3 := mkEvent EType.CHOCH Dir.bearish c.close c.timestamp sl3.price with he3
        set s3 : BState :=
          ⟨none, s.lastBear, some e3, i + P.structureLockBars, s.log ++ [(i, e3)]⟩ with hs3
        rw [hs3] at heq3
        have h4 : ¬ FireBullCHOCH P highs c i s3 := by
          rintro ⟨b4, sh4, hb4, hsh4, hc4, hts4, hv4⟩
          rw [show s3.lastBear = s.lastBear from rfl] at hb4
          have hshpos : 0 < sh4.price := hposH sh4 (lastSwingBefore_mem hsh4).1
          refine h1 ⟨sh4, hsh4, ?_, ?_⟩
          · calc sh4.price * (1 + P.bosThreshold / 100)
                ≤ sh4.price * (1 + P.chochThreshold / 100) := by
                  apply mul_le_mul_of_nonneg_left _ (le_of_lt hshpos)
                  linarith
              _ < c.close := hc4
          · rw [show validateStructureDistance P sh4.price c.close s.lastBear =
                validateStructureDistance P sh4.price c.close (some b4) from by rw [hb4]]
            exact hv4
        rw [heq3, bullishCHOCHStep_not_fire h4]
        exact Or.inr ⟨hskip, rfl, by simp, Or.inl ⟨e3, eventSound_bearCHOCH hsl3 hc3, rfl⟩⟩
      · rw [bearishCHOCHStep_not_fire h3]
        by_cases h4 : FireBullCHOCH P highs c i s
        · rcases bullishCHOCHStep_fire h4 with ⟨b, sh4, hb4, hsh4, hc4, heq4⟩
          rw [heq4]
          exact Or.inr ⟨hskip, rfl, by simp,
            Or.inl ⟨mkEvent EType.CHOCH Dir.bullish c.close c.timestamp sh4.price,
              eventSound_bullCHOCH hsh4 hc4, rfl⟩⟩
        · rw [bullishCHOCHStep_not_fire h4]
          exact Or.inl rfl

theorem BInv_step (P : AnalyzerParams) (highs lows : List SwingPoint) (c : Candle)
    (i : ℕ) (s : BState)
    (hposH : ∀ sp ∈ highs, 0 < sp.price) (hposL : ∀ sp ∈ lows, 0 < sp.price)
    (hd : 0 < P.minStructureDistance) (hbc : P.bosThreshold ≤ P.chochThreshold)
    (hinv : BInv P highs lows i s) :
    BInv P highs lows (i + 1) (processCandle P highs lows c i s) := by
  rcases hinv with ⟨hidx, hempty, hlock, hsound, hpair⟩
  rcases processCandle_cases P highs lows c i s hposH hposL hd hbc with
    heq | ⟨hns, hlock', hevt', hcase⟩
  · rw [heq]
    exact ⟨fun p hp => Nat.lt_succ_of_lt (hidx p hp), hempty, hlock, hsound, hpair⟩
  · have hfree : ∀ p ∈ s.log, p.1 + P.structureLockBars ≤ i := by
      intro p hp
      rcases not_and_or.1 hns with h | h
      · have := hlock p hp
        omega
      · rw [not_ne_iff] at h
        rw [hempty h] at hp
        cases hp
    rcases hcase with ⟨e, hse, hlog⟩ | ⟨e₁, e₂, hs1, hs2, hdir, hlog⟩
    · refine ⟨?_, fun h => absurd h hevt', ?_, ?_, ?_⟩
      · intro p hp
        rw [hlog] at hp
        rcases List.mem_append.1 hp with hp | hp
        · exact Nat.lt_succ_of_lt (hidx p hp)
        · rcases List.mem_singleton.1 hp with rfl
          show i < i + 1
          omega
      · intro p hp
        rw [hlog] at hp
        rw [hlock']
        rcases List.mem_append.1 hp with hp | hp
        · have := hidx p hp
          omega
        · rcases List.mem_singleton.1 hp with rfl
          show i + P.structureLockBars ≤ i + P.structureLockBars
          omega
      · intro p hp
        rw [hlog] at hp
        rcases List.mem_append.1 hp with hp | hp
        · exact hsound p hp
        · rcases List.mem_singleton.1 hp with rfl
          exact hse
      · rw [hlog]
        refine List.pairwise_append.2 ⟨hpair, by simp, ?_⟩
        intro p hp q hq
        rcases List.mem_singleton.1 hq with rfl
        exact Or.inr (hfree p hp)
    · refine ⟨?_, fun h => absurd h hevt', ?_, ?_, ?_⟩
      · intro p hp
        rw [hlog] at hp
        rcases List.mem_append.1 hp with hp | hp
        · exact Nat.lt_succ_of_lt (hidx p hp)
        · rcases List.mem_cons.1 hp with rfl | hp
          · show i < i + 1
            omega
          · rcases List.mem_singleton.1 hp with rfl
            show i < i + 1
            omega
      · intro p hp
        rw [hlog] at hp
        rw [hlock']
        rcases List.mem_append.1 hp with hp | hp
        · have := hidx p hp
          omega
        · rcases List.mem_cons.1 hp with rfl | hp
          · show i + P.structureLockBars ≤ i + P.structureLockBars
            omega
          · rcases List.mem_singleton.1 hp with rfl
            show i + P.structureLockBars ≤ i + P.structureLockBars
            omega
      · intro p hp
        rw [hlog] at hp
        rcases List.mem_append.1 hp with hp | hp
        · exact hsound p hp
        · rcases List.mem_cons.1 hp with rfl | hp
          · exact hs1
          · rcases List.mem_singleton.1 hp with rfl
            exact hs2
      · rw [hlog]
        refine List.pairwise_append.2 ⟨hpair, ?_, ?_⟩
        · refine List.pairwise_cons.2 ⟨?_, by simp⟩
          intro q hq
          rcases List.mem_singleton.1 hq with rfl
          exact Or.inl ⟨rfl, hdir⟩
        · intro p hp q hq
          rcases List.mem_cons.1 hq with rfl | hq
          · exact Or.inr (hfree p hp)
          · rcases List.mem_singleton.1 hq with rfl
            exact Or.inr (hfree p hp)

theorem BInv_fold (P : AnalyzerParams) (highs lows : List SwingPoint)
    (candles : List Candle)
    (hposH : ∀ sp ∈ highs, 0 < sp.price) (hposL : ∀ sp ∈ lows, 0 < sp.price)
    (hd : 0 < P.minStructureDistance) (hbc : P.bosThreshold ≤ P.chochThreshold) :
    ∀ (len start : ℕ) (s : BState), BInv P highs lows start s →
      BInv P highs lows (start + len)
        ((List.range' start len).foldl
          (fun s i => processCandle P highs lows (candles.getD i default) i s) s) := by
  intro len
  induction len with
  | zero =>
    intro start s h
    simpa using h
  | succ n ih =>
    intro start s h
    rw [List.range'_succ, List.foldl_cons]
    have h1 := BInv_step P highs lows (candles.getD start default) start s
      hposH hposL hd hbc h
    have h2 := ih (start + 1) _ h1
    have : start + (n + 1) = start + 1 + n := by omega
    rw [this]
    exact h2

theorem detectLog_sound (P : AnalyzerParams) (candles : List Candle)
    (hpos : ∀ c ∈ candles, 0 < c.low ∧ c.low ≤ c.high)
    (hd : 0 < P.minStructureDistance) (hbc : P.bosThreshold ≤ P.chochThreshold) :
    (∀ p ∈ detectLog P candles,
       EventSound P
         ((detectSwingPoints P candles).filter (fun sp => sp.type = SPType.high))
         ((detectSwingPoints P candles).filter (fun sp => sp.type = SPType.low)) p.2) ∧
    (detectLog P candles).Pairwise (BRel P) := by
  have hposH : ∀ sp ∈ (detectSwingPoints P candles).filter
      (fun sp => sp.type = SPType.high), 0 < sp.price := by
    intro sp hsp
    exact detectSwingPoints_price_pos hpos sp (List.mem_filter.1 hsp).1
  have hposL : ∀ sp ∈ (detectSwingPoints P candles).filter
      (fun sp => sp.type = SPType.low), 0 < sp.price := by
    intro sp hsp
    exact detectSwingPoints_price_pos hpos sp (List.mem_filter.1 hsp).1
  have hinit : BInv P
      ((detectSwingPoints P candles).filter (fun sp => sp.type = SPType.high))
      ((detectSwingPoints P candles).filter (fun sp => sp.type = SPType.low))
      (max P.lookbackWindow 1) initBState := by
    refine ⟨?_, ?_, ?_, ?_, ?_⟩ <;> simp [initBState]
  have hfold := BInv_fold P
    ((detectSwingPoints P candles).filter (fun sp => sp.type = SPType.high))
    ((detectSwingPoints P candles).filter (fun sp => sp.type = SPType.low))
    candles hposH hposL hd hbc
    (candles.length - max P.lookbackWindow 1) (max P.lookbackWindow 1) initBState hinit
  unfold detectLog
  exact ⟨hfold.2.2.2.1, hfold.2.2.2.2⟩

/-- Claim C1: every structure event emitted by `detectBOSCHOCH` breaks its
level by at least the configured threshold as a fraction — `bosThreshold /
100` for BOS events and `chochThreshold / 100` for CHOCH events.  The
hypotheses hold for the constructor defaults (`minStructureDistance = 1 >
0`, `bosThreshold = 0.3 ≤ 0.5 = chochThreshold`) and for any series of
genuine candles (positive prices, `low ≤ high`). -/
theorem claim_C1_break_threshold (P : AnalyzerParams) (candles : List Candle)
    (hpos : ∀ c ∈ candles, 0 < c.low ∧ c.low ≤ c.high)
    (hd : 0 < P.minStructureDistance) (hbc : P.bosThreshold ≤ P.chochThreshold) :
    ∀ e ∈ detectBOSCHOCH P candles,
      0 < e.brokenLevel ∧
      (if e.type = EType.BOS then P.bosThreshold else P.chochThreshold) / 100 ≤
        |e.price - e.brokenLevel| / e.brokenLevel := by
  intro e he
  unfold detectBOSCHOCH at he
  rcases List.mem_map.1 he with ⟨p, hp, rfl⟩
  have hsound := (detectLog_sound P candles hpos hd hbc).1 p hp
  rcases hsound with ⟨sp, hlevel, hcase⟩
  have hsp_pos : 0 < sp.price := by
    rcases hcase with ⟨_, hmem, _⟩ | ⟨_, hmem, _⟩ <;>
      exact detectSwingPoints_price_pos hpos sp (List.mem_filter.1 hmem).1
  refine ⟨by rw [hlevel]; exact hsp_pos, ?_⟩
  rw [hlevel]
  rw [le_div_iff₀ hsp_pos]
  rcases hcase with ⟨_, _, hlt⟩ | ⟨_, _, hlt⟩
  · have h1 : p.2.price - sp.price ≤ |p.2.price - sp.price| := le_abs_self _
    nlinarith
  · have h1 : sp.price - p.2.price ≤ |p.2.price - sp.price| := by
      rw [abs_sub_comm]
      exact le_abs_self _
    nlinarith

set_option maxRecDepth 40000 in
unseal Rat.add Rat.mul Rat.sub Rat.inv in
/-- Witness for C1: the bullish BOS emitted at candle 27 of `exSeries`
satisfies the threshold bound. -/
theorem claim_C1_witness :
    0 < exEventBOS.brokenLevel ∧
    (if exEventBOS.type = EType.BOS then defaultParams.bosThreshold
      else defaultParams.chochThreshold) / 100 ≤
      |exEventBOS.price - exEventBOS.brokenLevel| / exEventBOS.brokenLevel :=
  claim_C1_break_threshold defaultParams exSeries (by decide) (by decide) (by decide)
    exEventBOS (by decide)

/-- Claim C2, amended: two emissions of the structure detector either share
one candle index — and then they have the same direction (a bearish BOS
immediately followed by a bearish CHOCH, or the bullish mirror) — or they
are at least `structureLockBars` candles apart.  In particular no two
opposite-direction events are ever emitted within `structureLockBars` of
each other, which is the first half of the claim; the counterexample shows
the claim's second half (no emission at all within the lock window) fails
for same-candle pairs. -/
theorem claim_C2_amended (P : AnalyzerParams) (candles : List Candle)
    (hpos : ∀ c ∈ candles, 0 < c.low ∧ c.low ≤ c.high)
    (hd : 0 < P.minStructureDistance) (hbc : P.bosThreshold ≤ P.chochThreshold) :
    (detectLog P candles).Pairwise (fun p q =>
      (p.1 = q.1 ∧ p.2.direction = q.2.direction) ∨ p.1 + P.structureLockBars ≤ q.1) ∧
    (detectLog P candles).Pairwise (fun p q =>
      p.2.direction ≠ q.2.direction → p.1 + P.structureLockBars ≤ q.1) := by
  have h := (detectLog_sound P candles hpos hd hbc).2
  refine ⟨h, h.imp ?_⟩
  intro p q hpq hdir
  rcases hpq with ⟨_, hsame⟩ | hgap
  · exact absurd hsame hdir
  · exact hgap

set_option maxRecDepth 40000 in
unseal Rat.add Rat.mul Rat.sub Rat.inv in
/-- Claim C2, counterexample: on `exSeries` the emission log is a bullish
BOS at index 27 followed by a bearish BOS and a bearish CHOCH both at
index 35, so the literal lock discipline — no emission at any index below
`i + structureLockBars` after an emission at `i` — is violated by the
same-candle pair at index 35. -/
theorem claim_C2_counterexample : ¬ StrictLockDiscipline defaultParams exSeries := by
  unfold StrictLockDiscipline
  decide

set_option maxRecDepth 40000 in
unseal Rat.add Rat.mul Rat.sub Rat.inv in
/-- Witness for the amended C2 on the concrete series `exSeries`. -/
theorem claim_C2_witness :
    (detectLog defaultParams exSeries).Pairwise (fun p q =>
      (p.1 = q.1 ∧ p.2.direction = q.2.direction) ∨
        p.1 + defaultParams.structureLockBars ≤ q.1) ∧
    (detectLog defaultParams exSeries).Pairwise (fun p q =>
      p.2.direction ≠ q.2.direction → p.1 + defaultParams.structureLockBars ≤ q.1) :=
  claim_C2_amended defaultParams exSeries (by decide) (by decide) (by decide)

/-- Claim C8, amended: the analysis is a pure function of the candle slice
and the clock reading, and every snapshot field except `activeFVGs` is
independent of the clock.  `activeFVGs` genuinely depends on the ambient
clock — the FVG ids embed `Date.now()` and `pruneFVGs` ages gaps against
it — so two runs at different wall-clock times can differ, as the
counterexample shows.  (Non-mutation of the input candles is inherent: the
embedding is pure and the source only writes analyzer-owned tables.) -/
theorem claim_C8_amended (P : AnalyzerParams) (candles : List Candle) (t₁ t₂ : ℤ) :
    (analyzeMarketStructure P candles t₁).currentStructure =
      (analyzeMarketStructure P candles t₂).currentStructure ∧
    (analyzeMarketStructure P candles t₁).lastBOSCHOCH =
      (analyzeMarketStructure P candles t₂).lastBOSCHOCH ∧
    (analyzeMarketStructure P candles t₁).recentSwingPoints =
      (analyzeMarketStructure P candles t₂).recentSwingPoints ∧
    (analyzeMarketStructure P candles t₁).trendStrength =
      (analyzeMarketStructure P candles t₂).trendStrength ∧
    (analyzeMarketStructure P candles t₁).structureConfidence =
      (analyzeMarketStructure P candles t₂).structureConfidence := by
  unfold analyzeMarketStructure
  by_cases h : candles.length < P.lookbackWindow + 3 <;> simp [h]

set_option maxRecDepth 100000 in
unseal Rat.add Rat.mul Rat.sub Rat.inv in
/-- Claim C8, counterexample: the same 25-candle slice analyzed at clock
reading 1500000 keeps its unmitigated FVG active, while at clock reading
15780000 the gap has aged past the 250-minute pruning horizon — the two
results differ, so `analyzeMarketStructure` is not a function of the candle
slice alone. -/
theorem claim_C8_counterexample :
    analyzeMarketStructure defaultParams c8Series 1500000 ≠
      analyzeMarketStructure defaultParams c8Series 15780000 := by
  decide

/-- Claim C10: the structure confidence is never strictly between 0 and 80 —
it is 0 exactly when the analyzer detected no events and at least 80
otherwise; consequently a snapshot with a non-null `lastBOSCHOCH` always
passes the `structureConfidence > 50` clause of `hasValidStructureSignal`. -/
theorem claim_C10_confidence_gap :
    (∀ events : List BEvent,
      calculateStructureConfidence events = 0 ∨ 80 ≤ calculateStructureConfidence events) ∧
    (∀ events : List BEvent, calculateStructureConfidence events = 0 ↔ events = []) ∧
    (∀ (P : AnalyzerParams) (candles : List Candle) (now : ℤ),
      (analyzeMarketStructure P candles now).lastBOSCHOCH = none ∨
      50 < (analyzeMarketStructure P candles now).structureConfidence) := by
  have key : ∀ events : List BEvent, events ≠ [] →
      80 ≤ calculateStructureConfidence events := by
    intro events hne
    unfold calculateStructureConfidence
    have hlen1 : 1 ≤ events.length := List.length_pos.2 hne
    set recentEvents := events.drop (events.length - 5) with hre
    have hlen : recentEvents.length = events.length - (events.length - 5) := by
      rw [hre]
      exact List.length_drop _ _
    have hn1 : 1 ≤ recentEvents.length := by omega
    have hn5 : recentEvents.length ≤ 5 := by omega
    rw [if_neg (by omega)]
    cases hlast : recentEvents.getLast? with
    | none =>
      rw [List.getLast?_eq_none_iff] at hlast
      have h0 : recentEvents.length = 0 := by rw [hlast]; rfl
      omega
    | some lastE =>
      have hmem : lastE ∈ recentEvents := mem_of_getLast?_eq_some hlast
      have hconsist : 1 ≤ (recentEvents.filter
          (fun e => e.direction = lastE.direction)).length := by
        have hmf : lastE ∈ recentEvents.filter (fun e => e.direction = lastE.direction) :=
          List.mem_filter.2 ⟨hmem, by simp⟩
        exact List.length_pos.2 (List.ne_nil_of_mem hmf)
      refine le_min (by norm_num) (le_trans ?_ (le_max_right _ _))
      obtain ⟨k, hk⟩ : ∃ k, (recentEvents.filter
          (fun e => e.direction = lastE.direction)).length = k := ⟨_, rfl⟩
      obtain ⟨m, hm⟩ : ∃ m, (recentEvents.filter
          (fun e => e.significance = Sig.major)).length = m := ⟨_, rfl⟩
      obtain ⟨n, hn⟩ : ∃ n, recentEvents.length = n := ⟨_, rfl⟩
      rw [hk] at hconsist
      rw [hn] at hn1 hn5
      rw [hk, hm, hn]
      have hkq : (1 : ℚ) ≤ (k : ℚ) := by exact_mod_cast hconsist
      have hmq : (0 : ℚ) ≤ (m : ℚ) := by positivity
      interval_cases n <;> push_cast <;> linarith
  refine ⟨?_, ?_, ?_⟩
  · intro events
    by_cases h : events = []
    · left
      rw [h]
      rfl
    · right
      exact key events h
  · intro events
    constructor
    · intro h0
      by_contra hne
      have h80 := key events hne
      rw [h0] at h80
      norm_num at h80
    · intro h
      rw [h]
      rfl
  · intro P candles now
    unfold analyzeMarketStructure
    by_cases h : candles.length < P.lookbackWindow + 3
    · rw [if_pos h]
      left
      rfl
    · rw [if_neg h]
      cases hev : (detectBOSCHOCH P candles).getLast? with
      | none =>
        left
        exact hev
      | some e =>
        right
        have hne : detectBOSCHOCH P candles ≠ [] := by
          intro hnil
          rw [hnil] at hev
          cases hev
        have h80 := key _ hne
        show (50 : ℚ) < calculateStructureConfidence (detectBOSCHOCH P candles)
        linarith

set_option maxRecDepth 40000 in
unseal Rat.add Rat.mul Rat.sub Rat.inv in
/-- Claim C7, counterexample: the notification service has no
de-duplication at all — running `checkForAlerts` twice on the same
BOS-entry transition 30 seconds apart emits two `(RELIANCE, BOS_ENTRY)`
alerts 30000 ms < one minute apart. -/
theorem claim_C7_counterexample : ¬ DedupWithinMinute cvLog := by
  unfold DedupWithinMinute cvLog
  decide

/-- Claim C7, amended: no time-based de-duplication exists across checks;
only within a single `checkForAlerts` invocation is each alert type emitted
at most once (each trigger rule runs once per invocation). -/
theorem claim_C7_amended (prev curr : StockView) (favs : List String)
    (mkId : ℕ → String) (now : ℤ) :
    (checkForAlerts (some prev) (some curr) favs mkId now []).Pairwise
      (fun a b => a.type ≠ b.type) := by
  unfold checkForAlerts createNotification
  by_cases h1 : prev.distance > 3 ∧ curr.distance ≤ 2 <;>
    by_cases h2 : prev.proximityZone ≠ "NEUTRAL" ∧ curr.proximityZone = "NEUTRAL" <;>
      by_cases h3 : prev.trend ≠ curr.trend <;>
        simp [h1, h2, h3, List.pairwise_cons]

/-- Claim C9, counterexample: in the search handlers Express actually
dispatches to, the query `bank nifty` does not match the `BANKNIFTY`
instrument.  The first-registered handler of the route (plain substring,
limit 10) returns nothing for it, and so does the `routes.ts` handler
(direct or dash-stripped substring, limit 20); only the shadowed,
never-dispatched second registration of the route would have matched it,
via its alias table. -/
theorem claim_C9_counterexample :
    liveMatchesStock ("BANKNIFTY") ("bank nifty") = false ∧
    liveSearchStocks [("BANKNIFTY")] ("bank nifty") = [] ∧
    routesMatchesStock ("BANKNIFTY") ("bank nifty") = false ∧
    routesSearchStocks [("BANKNIFTY")] ("bank nifty") = [] ∧
    matchesStock ("BANKNIFTY") ("bank nifty") = true := by
  decide

/-- Claim C9, amended: the reachable search handlers match
case-insensitively as a substring of the symbol — the first-registered
handler of the route matches exactly when the lower-cased query is a
substring of the lower-cased symbol and returns at most 10 results, and
the `routes.ts` handler accepts any such substring match too (besides its
dash-stripped variant) and returns at most 20 — and matching depends only
on the lower-cased query; neither resolves index aliases, so `banknifty`
matches the `BANKNIFTY` instrument but `bank nifty` does not. -/
theorem claim_C9_amended :
    (∀ (stocks : List String) (q : String),
      (liveSearchStocks stocks q).length ≤ 10) ∧
    (∀ (stocks : List String) (q : String),
      (routesSearchStocks stocks q).length ≤ 20) ∧
    (∀ sym q : String,
      liveMatchesStock sym q = true ↔ (lowerStr q).data <:+: (lowerStr sym).data) ∧
    (∀ sym q : String,
      containsSub (lowerStr sym) (lowerStr q) = true → routesMatchesStock sym q = true) ∧
    (∀ sym q₁ q₂ : String, lowerStr q₁ = lowerStr q₂ →
      liveMatchesStock sym q₁ = liveMatchesStock sym q₂ ∧
      routesMatchesStock sym q₁ = routesMatchesStock sym q₂) ∧
    liveMatchesStock ("BANKNIFTY") ("banknifty") = true ∧
    routesMatchesStock ("BANK-NIFTY") ("banknifty") = true := by
  refine ⟨?_, ?_, ?_, ?_, ?_, by decide, by decide⟩
  · intro stocks q
    unfold liveSearchStocks
    rw [List.length_take]
    exact min_le_left _ _
  · intro stocks q
    unfold routesSearchStocks
    rw [List.length_take]
    exact min_le_left _ _
  · intro sym q
    simp [liveMatchesStock, containsSub]
  · intro sym q h
    unfold routesMatchesStock
    dsimp only
    rw [h]
    simp
  · intro sym q₁ q₂ h
    unfold liveMatchesStock routesMatchesStock
    dsimp only
    rw [h]
    exact ⟨rfl, rfl⟩

theorem createFVGStep_pres (P : AnalyzerParams) (events : List BEvent)
    (candles : List Candle) (now : ℤ) (acc : List FairValueGap) (i : ℕ)
    (h : ∀ g ∈ acc, g.isMitigated = false ∧ g.mitigatedAt = none) :
    ∀ g ∈ createFVGStep P events candles now acc i,
      g.isMitigated = false ∧ g.mitigatedAt = none := by
  intro g hg
  unfold createFVGStep at hg
  dsimp only at hg
  split_ifs at hg <;>
    first
    | exact h g hg
    | (rcases List.mem_append.1 hg with hg | hg
       · exact h g hg
       · rcases List.mem_singleton.1 hg with rfl
         exact ⟨rfl, rfl⟩)
    | (rcases List.mem_append.1 hg with hg | hg
       · rcases List.mem_append.1 hg with hg | hg
         · exact h g hg
         · rcases List.mem_singleton.1 hg with rfl
           exact ⟨rfl, rfl⟩
       · rcases List.mem_singleton.1 hg with rfl
         exact ⟨rfl, rfl⟩)

theorem createFVGs_unmitigated (P : AnalyzerParams) (events : List BEvent)
    (candles : List Candle) (now : ℤ) :
    ∀ g ∈ createFVGs P events candles now,
      g.isMitigated = false ∧ g.mitigatedAt = none := by
  unfold createFVGs
  suffices h : ∀ (l : List ℕ) (acc : List FairValueGap),
      (∀ g ∈ acc, g.isMitigated = false ∧ g.mitigatedAt = none) →
      ∀ g ∈ l.foldl (createFVGStep P events candles now) acc,
        g.isMitigated = false ∧ g.mitigatedAt = none by
    exact h _ [] (by simp)
  intro l
  induction l with
  | nil =>
    intro acc h g hg
    exact h g (by simpa using hg)
  | cons a l ih =>
    intro acc h
    rw [List.foldl_cons]
    exact ih _ (createFVGStep_pres P events candles now acc a h)

theorem fvgHit_iff (f : FairValueGap) (c : Candle) : fvgHit f c = true ↔ HitsFVG f c := by
  unfold fvgHit HitsFVG
  cases hfd : f.direction <;> simp [hfd]

theorem mitigateOne_cases (candles : List Candle) (g : FairValueGap)
    (hg : g.isMitigated = false) :
    (mitigateOne candles g = g ∧
      (candles.filter (fun c => g.timestamp < c.timestamp)).find? (fun c => fvgHit g c) = none) ∨
    (∃ c, (candles.filter (fun c => g.timestamp < c.timestamp)).find?
        (fun c => fvgHit g c) = some c ∧
      mitigateOne candles g =
        { g with isMitigated := true, mitigatedAt := some c.timestamp }) := by
  unfold mitigateOne
  rw [if_neg (by simp [hg])]
  cases hf : (candles.filter fun c => g.timestamp < c.timestamp).find? (fun c => fvgHit g c) with
  | none => exact Or.inl ⟨rfl, rfl⟩
  | some c => exact Or.inr ⟨c, rfl, rfl⟩

/-- Claim C5: every fair value gap returned by the tracker is flagged
mitigated exactly when some strictly later candle fills it, `mitigatedAt`
is the timestamp of the first such candle (earliest among all filling
candles, given strictly increasing candle timestamps) and is strictly
greater than the creation timestamp; and the mitigation pass never resets a
mitigated gap. -/
theorem claim_C5_fvg_mitigation (P : AnalyzerParams) (events : List BEvent)
    (candles : List Candle) (now : ℤ)
    (hsorted : candles.Pairwise (fun a b => a.timestamp < b.timestamp)) :
    (∀ fvg ∈ detectFairValueGaps P events candles now,
      (fvg.isMitigated = true ↔
        ∃ c ∈ candles, fvg.timestamp < c.timestamp ∧ HitsFVG fvg c) ∧
      (∀ t, fvg.mitigatedAt = some t →
        fvg.timestamp < t ∧
        ∃ c ∈ candles, c.timestamp = t ∧ HitsFVG fvg c ∧
          ∀ cc ∈ candles, fvg.timestamp < cc.timestamp → HitsFVG fvg cc →
            t ≤ cc.timestamp)) ∧
    (∀ g : FairValueGap, g.isMitigated = true →
      (mitigateOne candles g).isMitigated = true) := by
  constructor
  · intro fvg hm
    have hm' : fvg ∈ checkFVGMitigation candles (createFVGs P events candles now) := by
      unfold detectFairValueGaps pruneFVGs at hm
      exact (List.mem_filter.1 hm).1
    unfold checkFVGMitigation at hm'
    rcases List.mem_map.1 hm' with ⟨g, hgmem, rfl⟩
    rcases createFVGs_unmitigated P events candles now g hgmem with ⟨hgu, hgn⟩
    rcases mitigateOne_cases candles g hgu with ⟨heq, hfind⟩ | ⟨c, hfind, heq⟩
    · rw [heq]
      constructor
      · rw [hgu]
        constructor
        · intro hfalse
          cases hfalse
        · rintro ⟨c, hc, hts, hhit⟩
          exfalso
          have hcf : c ∈ candles.filter (fun c => g.timestamp < c.timestamp) :=
            List.mem_filter.2 ⟨hc, by simpa using hts⟩
          exact (List.find?_eq_none.1 hfind c hcf) ((fvgHit_iff g c).2 hhit)
      · intro t ht
        rw [hgn] at ht
        cases ht
    · rw [heq]
      have hcf := List.mem_of_find?_eq_some hfind
      have hchit : fvgHit g c = true := List.find?_some hfind
      rcases List.mem_filter.1 hcf with ⟨hcc, hcts⟩
      have hcts' : g.timestamp < c.timestamp := by simpa using hcts
      constructor
      · constructor
        · intro _
          exact ⟨c, hcc, hcts', (fvgHit_iff g c).1 hchit⟩
        · intro _
          rfl
      · intro t ht
        have htc : t = c.timestamp := by
          have : some c.timestamp = some t := ht
          exact (Option.some_injective _ this).symm
        subst htc
        refine ⟨hcts', c, hcc, rfl, (fvgHit_iff g c).1 hchit, ?_⟩
        intro cc hccmem hccts hcchit
        have hccf : cc ∈ candles.filter (fun c => g.timestamp < c.timestamp) :=
          List.mem_filter.2 ⟨hccmem, by simpa using hccts⟩
        rcases List.find?_eq_some.1 hfind with ⟨hpc, as, bs, hsplit, hnone⟩
        have hsortf : (candles.filter (fun c => g.timestamp < c.timestamp)).Pairwise
            (fun a b => a.timestamp < b.timestamp) :=
          List.Pairwise.sublist (List.filter_sublist candles) hsorted
        rw [hsplit] at hccf hsortf
        rcases List.mem_append.1 hccf with hin | hin
        · exact absurd ((fvgHit_iff g cc).2 hcchit)
            (by simpa using hnone cc hin)
        · rcases List.mem_cons.1 hin with rfl | hin
          · exact le_refl _
          · have := (List.pairwise_append.1 hsortf).2.1
            exact le_of_lt ((List.pairwise_cons.1 this).1 cc hin)
  · intro g hg
    unfold mitigateOne
    rw [if_pos (by simp [hg])]
    exact hg

set_option maxRecDepth 100000 in
unseal Rat.add Rat.mul Rat.sub Rat.inv in
/-- Witness for C5 on `c5Series`, whose gap at index 12 is mitigated by
candle 20. -/
theorem claim_C5_witness :
    (∀ fvg ∈ detectFairValueGaps defaultParams [] c5Series 1500000,
      (fvg.isMitigated = true ↔
        ∃ c ∈ c5Series, fvg.timestamp < c.timestamp ∧ HitsFVG fvg c) ∧
      (∀ t, fvg.mitigatedAt = some t →
        fvg.timestamp < t ∧
        ∃ c ∈ c5Series, c.timestamp = t ∧ HitsFVG fvg c ∧
          ∀ cc ∈ c5Series, fvg.timestamp < cc.timestamp → HitsFVG fvg cc →
            t ≤ cc.timestamp)) ∧
    (∀ g : FairValueGap, g.isMitigated = true →
      (mitigateOne c5Series g).isMitigated = true) :=
  claim_C5_fvg_mitigation defaultParams [] c5Series 1500000 (by decide)

theorem assembleStock_spec (symbol companyName : String) (currentPrice : ℚ)
    (tfs : List (String × MarketStructureAnalysis)) (now : ℤ) (r : StockSMCResult)
    (h : assembleStock symbol companyName currentPrice tfs now = some r) :
    minTimeframeMatches ≤ r.matchingTimeframes ∧
    r.matchingTimeframes = (r.timeframes.filter fun tf => tf.hasValidSignal).length ∧
    ∃ e ∈ r.timeframes, e.hasValidSignal = true ∧
      (∀ q ∈ r.timeframes, q.hasValidSignal = true →
        q.analysis.structureConfidence ≤ e.analysis.structureConfidence) ∧
      r.overallStructure = e.analysis.currentStructure := by
  unfold assembleStock at h
  dsimp only at h
  set timeframeResults := tfs.map (fun p =>
    (⟨p.1, p.2, hasValidStructureSignal p.2,
      calculateProximityToStructure currentPrice p.2.lastBOSCHOCH⟩ : TimeframeData))
    with htf
  set validEntries := timeframeResults.filter (fun tf => tf.hasValidSignal) with hve
  by_cases hlt : validEntries.length < minTimeframeMatches
  · rw [if_pos hlt] at h
    cases h
  · rw [if_neg hlt] at h
    set sortedValid := List.insertionSort
      (fun a b => b.analysis.structureConfidence ≤ a.analysis.structureConfidence)
      validEntries with hsv
    have hperm : sortedValid.Perm validEntries := List.perm_insertionSort _ _
    have hlen : sortedValid.length = validEntries.length := hperm.length_eq
    have h2 : minTimeframeMatches ≤ validEntries.length := Nat.le_of_not_lt hlt
    have hne : sortedValid ≠ [] := by
      intro hnil
      rw [hnil] at hlen
      simp only [List.length_nil] at hlen
      rw [show minTimeframeMatches = 2 from rfl] at h2
      omega
    cases htop : sortedValid.head? with
    | none =>
      rw [List.head?_eq_none_iff] at htop
      exact absurd htop hne
    | some top =>
      have htopmem : top ∈ sortedValid := by
        rcases sortedValid with _ | ⟨a, l⟩
        · cases htop
        · rcases Option.some_injective _ htop with rfl
          exact List.mem_cons_self _ _
      have htopvalid : top ∈ validEntries := hperm.subset htopmem
      rcases List.mem_filter.1 htopvalid with ⟨htopin, htophv⟩
      have hmax : ∀ q ∈ validEntries, q.analysis.structureConfidence ≤
          top.analysis.structureConfidence := by
        haveI : IsTotal TimeframeData
            (fun a b => b.analysis.structureConfidence ≤ a.analysis.structureConfidence) :=
          ⟨fun a b => (le_total b.analysis.structureConfidence
            a.analysis.structureConfidence).imp id id⟩
        haveI : IsTrans TimeframeData
            (fun a b => b.analysis.structureConfidence ≤ a.analysis.structureConfidence) :=
          ⟨fun _ _ _ hab hbc => le_trans hbc hab⟩
        have hsorted := List.sorted_insertionSort
          (fun a b => b.analysis.structureConfidence ≤ a.analysis.structureConfidence)
          validEntries
        rw [← hsv] at hsorted
        intro q hq
        have hq' : q ∈ sortedValid := (hperm.mem_iff).2 hq
        rcases sortedValid with _ | ⟨a, l⟩
        · cases htop
        · rcases Option.some_injective _ htop with rfl
          rcases List.mem_cons.1 hq' with rfl | hq''
          · exact le_refl _
          · exact List.rel_of_sorted_cons hsorted q hq''
      rcases Option.some_injective _ h.symm with rfl
      refine ⟨Nat.le_of_not_lt hlt, rfl, top, htopin, htophv, ?_, ?_⟩
      · intro q hq hqv
        exact hmax q (List.mem_filter.2 ⟨hq, hqv⟩)
      · show ((sortedValid.head?.map fun tf => tf.analysis.currentStructure).getD
          MStructure.neutral) = top.analysis.currentStructure
        rw [htop]
        rfl

/-- Claim C6: every instrument result the batch analyzer publishes has at
least `minTimeframeMatches = 2` matching timeframes — `matchingTimeframes`
being exactly the number of timeframe entries with a valid signal — and its
overall structure is the current structure of a valid-signal entry of
maximal structure confidence. -/
theorem claim_C6_batch
    (stockData : String → Option (String × ℚ × List (String × MarketStructureAnalysis)))
    (symbols : List String) (now : ℤ) :
    ∀ r ∈ analyzeBatch stockData symbols now,
      minTimeframeMatches ≤ r.matchingTimeframes ∧
      r.matchingTimeframes = (r.timeframes.filter fun tf => tf.hasValidSignal).length ∧
      ∃ e ∈ r.timeframes, e.hasValidSignal = true ∧
        (∀ q ∈ r.timeframes, q.hasValidSignal = true →
          q.analysis.structureConfidence ≤ e.analysis.structureConfidence) ∧
        r.overallStructure = e.analysis.currentStructure := by
  intro r hr
  unfold analyzeBatch at hr
  rw [(List.perm_insertionSort _ _).mem_iff] at hr
  rcases List.mem_filterMap.1 hr with ⟨sym, _, hfr⟩
  cases hsd : stockData sym with
  | none =>
    rw [hsd] at hfr
    cases hfr
  | some val =>
    obtain ⟨cn, price, tfs⟩ := val
    rw [hsd] at hfr
    dsimp only at hfr
    cases has : assembleStock sym cn price tfs now with
    | none =>
      rw [has] at hfr
      cases hfr
    | some r' =>
      rw [has] at hfr
      dsimp only at hfr
      split at hfr
      · rcases Option.some_injective _ hfr with rfl
        exact assembleStock_spec sym cn price tfs now _ has
      · cases hfr

set_option maxRecDepth 100000 in
unseal Rat.add Rat.mul Rat.sub Rat.inv in
/-- Witness for C6: the batch over the single symbol `X`, whose two
timeframes both hold valid signals, publishes one result satisfying the
claim. -/
theorem claim_C6_witness :
    minTimeframeMatches ≤ wResult.matchingTimeframes ∧
    wResult.matchingTimeframes =
      (wResult.timeframes.filter fun tf => tf.hasValidSignal).length ∧
    ∃ e ∈ wResult.timeframes, e.hasValidSignal = true ∧
      (∀ q ∈ wResult.timeframes, q.hasValidSignal = true →
        q.analysis.structureConfidence ≤ e.analysis.structureConfidence) ∧
      wResult.overallStructure = e.analysis.currentStructure :=
  claim_C6_batch wStockData [("X")] 0 wResult (by decide)

set_option maxRecDepth 40000 in
unseal Rat.add Rat.mul Rat.sub Rat.inv in
/-- Witness for C4: instantiating the characterization at the detected
swing high of `c3Series`. -/
theorem claim_C4_witness :
    specLookback defaultParams c3Series ≤ (15 : ℕ) ∧
    (15 : ℕ) + specLookback defaultParams c3Series < c3Series.length ∧
    (((⟨15, 102, SPType.high, (15 : ℤ)⟩ : SwingPoint).type = SPType.high ∧
       IsSwingHighSpec c3Series (specLookback defaultParams c3Series) 15 ∧
       (⟨15, 102, SPType.high, (15 : ℤ)⟩ : SwingPoint).price =
         (c3Series.getD 15 default).high ∧
       (⟨15, 102, SPType.high, (15 : ℤ)⟩ : SwingPoint).timestamp =
         (c3Series.getD 15 default).timestamp) ∨
     ((⟨15, 102, SPType.high, (15 : ℤ)⟩ : SwingPoint).type = SPType.low ∧
       IsSwingLowSpec c3Series (specLookback defaultParams c3Series) 15 ∧
       (⟨15, 102, SPType.high, (15 : ℤ)⟩ : SwingPoint).price =
         (c3Series.getD 15 default).low ∧
       (⟨15, 102, SPType.high, (15 : ℤ)⟩ : SwingPoint).timestamp =
         (c3Series.getD 15 default).timestamp)) :=
  (claim_C4_swing_detector defaultParams c3Series
    (⟨15, 102, SPType.high, (15 : ℤ)⟩ : SwingPoint)).1 (by decide)

set_option maxRecDepth 40000 in
unseal Rat.add Rat.mul Rat.sub Rat.inv in
/-- Witness for the amended C7 at the concrete stock views of the
counterexample. -/
theorem claim_C7_witness :
    (checkForAlerts (some cvPrev) (some cvCurr) [] (fun _ => "id") 0 []).Pairwise
      (fun a b => a.type ≠ b.type) :=
  claim_C7_amended cvPrev cvCurr [] (fun _ => "id") 0

/-- Witness for the amended C8 at the concrete inputs of the
counterexample: the five clock-independent fields agree across the two
clock readings even though the full results differ. -/
theorem claim_C8_witness :
    (analyzeMarketStructure defaultParams c8Series 1500000).currentStructure =
      (analyzeMarketStructure defaultParams c8Series 15780000).currentStructure ∧
    (analyzeMarketStructure defaultParams c8Series 1500000).lastBOSCHOCH =
      (analyzeMarketStructure defaultParams c8Series 15780000).lastBOSCHOCH ∧
    (analyzeMarketStructure defaultParams c8Series 1500000).recentSwingPoints =
      (analyzeMarketStructure defaultParams c8Series 15780000).recentSwingPoints ∧
    (analyzeMarketStructure defaultParams c8Series 1500000).trendStrength =
      (analyzeMarketStructure defaultParams c8Series 15780000).trendStrength ∧
    (analyzeMarketStructure defaultParams c8Series 1500000).structureConfidence =
      (analyzeMarketStructure defaultParams c8Series 15780000).structureConfidence :=
  claim_C8_amended defaultParams c8Series 1500000 15780000

/-- Witness for C9: a plain substring query matches, via the theorem's
substring clause, and the result bound instantiates. -/
theorem claim_C9_witness :
    (liveSearchStocks [("BANKNIFTY")] ("bank")).length ≤ 10 ∧
    routesMatchesStock ("BANKNIFTY") ("bank") = true :=
  ⟨claim_C9_amended.1 [("BANKNIFTY")] ("bank"),
   claim_C9_amended.2.2.2.1 ("BANKNIFTY") ("bank") (by decide)⟩

/-- Witness for C10: the zero case instantiated at the empty event list. -/
theorem claim_C10_witness :
    calculateStructureConfidence [] = 0 ↔ ([] : List BEvent) = [] :=
  claim_C10_confidence_gap.2.1 []
